import Mathlib

/-!
# BME280 driver (`bme280.go`): shallow embedding and verification

Modelling conventions.

* A Go `byte` is a `Nat` below 256; a byte slice is a `List Nat`.  Indexing a
  slice is `getD i 0` (every index used by the driver is inside the slice it
  allocated with `make`).
* Fixed-width integer conversions are explicit: `toUint16`, `toInt16`, `toInt8`
  reduce modulo `2^w` and reinterpret the bit pattern.
* A finite `float64` value is the rational it denotes.  Every arithmetic
  operation is the exact operation followed by `fl`, the IEEE 754 binary64
  rounding (53-bit significand, round to nearest, ties to even), one rounding
  per operation and none fused.  The exponent range is not bounded: with the
  8-, 16- and 32-bit integer inputs of the driver no intermediate value
  overflows or becomes subnormal.  Conversions of those integers to `float64`
  are exact.  Infinities and NaN are not values of the model: the only
  division whose divisor is not a non-zero literal (`compensatePres`, division
  by `v1`) is the checked division `fdiv`, whose result `none` stands for the
  non-finite value a division by zero would produce.
* `float64ToInt32` is Go's `int32(f)`: the truncation toward zero when it is an
  `int32` value, and otherwise the value the amd64 conversion instruction
  delivers, -2147483648 (Go leaves this case to the implementation).
* The I2C bus is an external collaborator: a pair of functions on an abstract
  bus state, wrapped so that every operation issued is appended to a log.
* `callibrate` is the function as one caller runs it.  Several callers are
  modelled by `concStep`: the section under the shared lock and the section
  under the exclusive lock are each one atomic step, and a schedule is a list
  of such steps.
-/

namespace BME280

/-! ## Fixed-width integers -/

/-- Conversion to `uint16`: keep the low 16 bits. -/
def toUint16 (n : Nat) : Nat := n % 65536

/-- Conversion to `int16`: keep the low 16 bits, read as two's complement. -/
def toInt16 (n : Nat) : Int :=
  if n % 65536 < 32768 then (n % 65536 : Nat) else ((n % 65536 : Nat) : Int) - 65536

/-- Conversion to `int8`: keep the low 8 bits, read as two's complement. -/
def toInt8 (n : Nat) : Int :=
  if n % 256 < 128 then (n % 256 : Nat) else ((n % 256 : Nat) : Int) - 256

/-- Conversion to `uint8`: keep the low 8 bits. -/
def toUint8 (n : Nat) : Nat := n % 256

/-- Truncation of a rational toward zero. -/
def truncToZero (x : ℚ) : Int := if 0 ≤ x then ⌊x⌋ else ⌈x⌉

/-- An integer that is a value of the type `int32`. -/
def FitsInt32 (t : Int) : Prop := -2147483648 ≤ t ∧ t ≤ 2147483647

instance (t : Int) : Decidable (FitsInt32 t) := by
  unfold FitsInt32; infer_instance

/-- Go's `int32(f)` for a `float64` value `f`: the truncation toward zero when
it is an `int32` value; for any other value the result of the amd64 conversion
instruction, -2147483648. -/
def float64ToInt32 (x : ℚ) : Int :=
  if FitsInt32 (truncToZero x) then truncToZero x else -2147483648

/-- Rounding of a rational to the nearest integer, ties to the even one. -/
def roundNE (y : ℚ) : Int :=
  if y - ⌊y⌋ < 1 / 2 then ⌊y⌋
  else if 1 / 2 < y - ⌊y⌋ then ⌊y⌋ + 1
  else if ⌊y⌋ % 2 = 0 then ⌊y⌋ else ⌊y⌋ + 1

/-- The binary64 rounding of a rational: the value is scaled so that its
magnitude lies in [2^52, 2^53), rounded to the nearest integer (ties to even)
and scaled back. -/
def fl (x : ℚ) : ℚ :=
  if x = 0 then 0
  else (roundNE (x * 2 ^ (52 - Int.log 2 |x|)) : ℚ) / 2 ^ (52 - Int.log 2 |x|)

/-- The `float64` sum. -/
def fadd (x y : ℚ) : ℚ := fl (x + y)

/-- The `float64` difference. -/
def fsub (x y : ℚ) : ℚ := fl (x - y)

/-- The `float64` product. -/
def fmul (x y : ℚ) : ℚ := fl (x * y)

/-- The `float64` quotient by a non-zero literal. -/
def fquo (x y : ℚ) : ℚ := fl (x / y)

/-- Checked `float64` division: `none` when the divisor is zero. -/
def fdiv (x y : ℚ) : Option ℚ := if y = 0 then none else some (fl (x / y))

/-- The two's-complement reading of a `w`-bit pattern `u`, used to state the
decoding results. -/
def twosComplement (w : Nat) (u : Nat) : Int :=
  if u % 2 ^ w < 2 ^ (w - 1) then ((u % 2 ^ w : Nat) : Int) else ((u % 2 ^ w : Nat) : Int) - 2 ^ w

/-! ## Constants and options -/

def DeviceAddr : Nat := 0x76
def CtrlHumAddr : Nat := 0xf2
def CtrlMeasureAddr : Nat := 0xf4
def CtrlConfAddr : Nat := 0xf5

/-- The Go struct `BME280Opt`. -/
structure BME280Opt where
  TemperatureOverSampling : Nat
  PressureOverSampling : Nat
  HumidityOverSampling : Nat
  Mode : Nat
  TStandby : Nat
  Filter : Nat
  SPI3WEnable : Bool
  deriving Repr, DecidableEq

def NewOpt : BME280Opt :=
  { TemperatureOverSampling := 1
    PressureOverSampling := 1
    HumidityOverSampling := 1
    Mode := 3
    TStandby := 5
    Filter := 0
    SPI3WEnable := false }

def BME280Opt.MeasureReg (o : BME280Opt) : Nat :=
  toUint8 ((o.TemperatureOverSampling <<< 5) ||| (o.PressureOverSampling <<< 2) ||| o.Mode)

def BME280Opt.ConfigReg (o : BME280Opt) : Nat :=
  let spi3wEnable : Nat := if o.SPI3WEnable then 1 else 0
  toUint8 ((o.TStandby <<< 5) ||| (o.Filter <<< 2) ||| spi3wEnable)

/-! ## Device state -/

/-- The Go struct `BME280` without its bus handle and its mutex. -/
structure Device where
  Opt : BME280Opt
  calibrated : Bool
  calibval : List Nat
  tfine : Int
  digT1 : Nat
  digT2 : Int
  digT3 : Int
  digP1 : Nat
  digP2 : Int
  digP3 : Int
  digP4 : Int
  digP5 : Int
  digP6 : Int
  digP7 : Int
  digP8 : Int
  digP9 : Int
  digH1 : Nat
  digH2 : Int
  digH3 : Nat
  digH4 : Int
  digH5 : Int
  digH6 : Int
  deriving Repr, DecidableEq

/-- The zero value of the struct, as `New` creates it. -/
def Device.init (opt : BME280Opt) : Device :=
  { Opt := opt, calibrated := false, calibval := [], tfine := 0,
    digT1 := 0, digT2 := 0, digT3 := 0,
    digP1 := 0, digP2 := 0, digP3 := 0, digP4 := 0, digP5 := 0,
    digP6 := 0, digP7 := 0, digP8 := 0, digP9 := 0,
    digH1 := 0, digH2 := 0, digH3 := 0, digH4 := 0, digH5 := 0, digH6 := 0 }

/-- A byte slice of length `n`: every element is below 256. -/
def IsBytes (n : Nat) (b : List Nat) : Prop := b.length = n ∧ ∀ x ∈ b, x < 256

instance (n : Nat) (b : List Nat) : Decidable (IsBytes n b) := by
  unfold IsBytes; infer_instance

/-! ## Calibration decoding -/

def calibrateTemp (d : Device) : Device :=
  let c := fun i => d.calibval.getD i 0
  { d with
    digT1 := toUint16 ((c 1 <<< 8) ||| c 0)
    digT2 := toInt16 ((c 3 <<< 8) ||| c 2)
    digT3 := toInt16 ((c 5 <<< 8) ||| c 4) }

def calibratePres (d : Device) : Device :=
  let c := fun i => d.calibval.getD i 0
  { d with
    digP1 := toUint16 ((c 7 <<< 8) ||| c 6)
    digP2 := toInt16 ((c 9 <<< 8) ||| c 8)
    digP3 := toInt16 ((c 11 <<< 8) ||| c 10)
    digP4 := toInt16 ((c 13 <<< 8) ||| c 12)
    digP5 := toInt16 ((c 15 <<< 8) ||| c 14)
    digP6 := toInt16 ((c 17 <<< 8) ||| c 16)
    digP7 := toInt16 ((c 19 <<< 8) ||| c 18)
    digP8 := toInt16 ((c 21 <<< 8) ||| c 20)
    digP9 := toInt16 ((c 23 <<< 8) ||| c 22) }

def calibrateHum (d : Device) : Device :=
  let c := fun i => d.calibval.getD i 0
  { d with
    digH2 := toInt16 ((c 1 <<< 8) ||| c 0)
    digH3 := toUint8 (c 2)
    digH4 := toInt16 ((c 3 <<< 4) ||| (0x0f &&& c 4))
    digH5 := toInt16 ((c 5 <<< 4) ||| (c 4 >>> 4))
    digH6 := toInt8 (c 6) }

/-! ## Bus -/

/-- One operation issued on the bus. -/
inductive BusOp where
  | write (dev reg val : Nat)
  | read (dev reg len : Nat)
  deriving Repr, DecidableEq

/-- The transport: the two operations of the bus interface the driver calls,
as functions on an abstract bus state `σ` with errors in `ε`. -/
structure I2CBus (σ ε : Type) where
  WriteByteToReg : σ → Nat → Nat → Nat → Option ε × σ
  ReadFromReg : σ → Nat → Nat → Nat → Except ε (List Nat) × σ

/-- The bus state together with the log of operations issued so far. -/
structure World (σ : Type) where
  st : σ
  log : List BusOp

/-- A buffer `make([]byte, n)` after the transport has stored `bs` in it. -/
def fillBuf (n : Nat) (bs : List Nat) : List Nat :=
  (List.range n).map fun i => bs.getD i 0 % 256

def busWrite {σ ε : Type} (bus : I2CBus σ ε) (w : World σ) (dev reg val : Nat) :
    Option ε × World σ :=
  let r := bus.WriteByteToReg w.st dev reg val
  (r.1, { st := r.2, log := w.log ++ [BusOp.write dev reg val] })

def busRead {σ ε : Type} (bus : I2CBus σ ε) (w : World σ) (dev reg len : Nat) :
    Except ε (List Nat) × World σ :=
  let r := bus.ReadFromReg w.st dev reg len
  (r.1.map (fillBuf len), { st := r.2, log := w.log ++ [BusOp.read dev reg len] })

/-! ## Lifecycle -/

/-- The loop of `setup` over the three (address, value) pairs. -/
def setupLoop {σ ε : Type} (bus : I2CBus σ ε) :
    List (Nat × Nat) → World σ → Option ε × World σ
  | [], w => (none, w)
  | (addr, reg) :: rest, w =>
    match busWrite bus w DeviceAddr addr reg with
    | (some err, w1) => (some err, w1)
    | (none, w1) => setupLoop bus rest w1

def setup {σ ε : Type} (bus : I2CBus σ ε) (d : Device) (w : World σ) : Option ε × World σ :=
  let regs := [toUint8 d.Opt.HumidityOverSampling, d.Opt.MeasureReg, d.Opt.ConfigReg]
  let addrs := [CtrlHumAddr, CtrlMeasureAddr, CtrlConfAddr]
  setupLoop bus (addrs.zip regs) w

/-- The body of `callibrate` for one caller running alone (the lock operations
have no effect on a single caller). -/
def callibrate {σ ε : Type} (bus : I2CBus σ ε) (d : Device) (w : World σ) :
    Option ε × Device × World σ :=
  if d.calibrated then (none, d, w)
  else
    match busRead bus w DeviceAddr 0x88 26 with
    | (.error err, w1) => (some err, { d with calibval := List.replicate 26 0 }, w1)
    | (.ok buf, w1) =>
      let d1 := calibratePres (calibrateTemp { d with calibval := buf })
      let d2 := { d1 with digH1 := toUint8 (d1.calibval.getD 25 0) }
      match busRead bus w1 DeviceAddr 0xe1 7 with
      | (.error err, w2) => (some err, { d2 with calibval := List.replicate 7 0 }, w2)
      | (.ok buf2, w2) =>
        let d3 := calibrateHum { d2 with calibval := buf2 }
        (none, { d3 with calibrated := true }, w2)

/-! ## Compensation -/

def compensateTemp (d : Device) (raw : Int) : ℚ × Device :=
  let t1 : ℚ := d.digT1
  let t2 : ℚ := d.digT2
  let t3 : ℚ := d.digT3
  let raw64 : ℚ := raw
  let v1 := fmul (fsub (fquo raw64 16384) (fquo t1 1024)) t2
  let v2 := fmul (fmul (fsub (fquo raw64 131072) (fquo t1 8192))
    (fsub (fquo raw64 131072) (fquo t1 8192))) t3
  let tfine := fadd v1 v2
  (fquo tfine 5120, { d with tfine := float64ToInt32 tfine })

def compensatePres (d : Device) (raw : Int) : Option ℚ :=
  let p1 : ℚ := d.digP1
  let p2 : ℚ := d.digP2
  let p3 : ℚ := d.digP3
  let p4 : ℚ := d.digP4
  let p5 : ℚ := d.digP5
  let p6 : ℚ := d.digP6
  let p7 : ℚ := d.digP7
  let p8 : ℚ := d.digP8
  let p9 : ℚ := d.digP9
  let raw64 : ℚ := raw
  let pres := fsub 1048576 raw64
  let v1 : ℚ := fsub (fquo (d.tfine : ℚ) 2) 64000
  let v2 := fquo (fmul (fmul v1 v1) p6) 32768
  let v2 := fadd v2 (fmul (fmul v1 p5) 2)
  let v2 := fadd (fquo v2 4) (fmul p4 65536)
  let v1 := fquo (fadd (fquo (fmul (fmul p3 v1) v1) 524288) (fmul p2 v1)) 524288
  let v1 := fmul (fadd 1 (fquo v1 32768)) p1
  if v1 ≠ 0 then
    (fdiv (fmul (fsub pres (fquo v2 4096)) 6250) v1).map fun pres =>
      let v1 := fquo (fmul (fmul p9 pres) pres) 2147483648
      let v2 := fquo (fmul pres p8) 32768
      fadd pres (fquo (fadd (fadd v1 v2) p7) 16)
  else
    some 0

def compensateHum (d : Device) (raw : Int) : ℚ :=
  let hum : ℚ := fsub (d.tfine : ℚ) 76800
  let h1 : ℚ := d.digH1
  let h2 : ℚ := d.digH2
  let h3 : ℚ := d.digH3
  let h4 : ℚ := d.digH4
  let h5 : ℚ := d.digH5
  let h6 : ℚ := d.digH6
  let raw64 : ℚ := raw
  if hum ≠ 0 then
    let hum := fmul (fsub raw64 (fadd (fmul h4 64) (fmul (fquo h5 16384) hum)))
      (fmul (fquo h2 65536)
        (fadd 1 (fmul (fmul (fquo h6 67108864) hum) (fadd 1 (fmul (fquo h3 67108864) hum)))))
    let hum := fmul hum (fsub 1 (fquo (fmul h1 hum) 524288))
    if hum > 100 then 100
    else if hum < 0 then 0
    else hum
  else
    0

/-! ## Read -/

/-- The three raw readings assembled from the 8-byte burst. -/
def presRaw (data : List Nat) : Int :=
  (((data.getD 0 0 <<< 12) ||| (data.getD 1 0 <<< 4) ||| (data.getD 2 0 >>> 4) : Nat) : Int)

def tempRaw (data : List Nat) : Int :=
  (((data.getD 3 0 <<< 12) ||| (data.getD 4 0 <<< 4) ||| (data.getD 5 0 >>> 4) : Nat) : Int)

def humRaw (data : List Nat) : Int :=
  (((data.getD 6 0 <<< 8) ||| data.getD 7 0 : Nat) : Int)

/-- The part of `Read` after a successful burst read. -/
def readBurst (d : Device) (data : List Nat) : List (Option ℚ) × Device :=
  let d0 := { d with tfine := 0 }
  let r := compensateTemp d0 (tempRaw data)
  let temp := r.1
  let d1 := r.2
  let pres := compensatePres d1 (presRaw data)
  let hum := compensateHum d1 (humRaw data)
  ([some temp, pres, some hum], d1)

def Read {σ ε : Type} (bus : I2CBus σ ε) (d : Device) (w : World σ) :
    Except ε (List (Option ℚ)) × Device × World σ :=
  match busRead bus w DeviceAddr 0xf7 8 with
  | (.error err, w1) => (.error err, d, w1)
  | (.ok data, w1) =>
    let r := readBurst d data
    (.ok r.1, r.2, w1)

/-! ## Statement vocabulary and sample inputs -/

/-- A bus that answers every read with a fixed list per register (0x88, 0xe1,
anything else) and accepts every write. -/
def constBus (first second burst : List Nat) : I2CBus Unit Nat where
  WriteByteToReg := fun s _ _ _ => (none, s)
  ReadFromReg := fun s _ reg _ =>
    (.ok (if reg = 0x88 then first else if reg = 0xe1 then second else burst), s)

/-- A first calibration block whose bytes 0..1 are (0x70, 0x6B) and whose
bytes 4..5 are (0x18, 0xFC). -/
def sampleBlock1 : List Nat :=
  [0x70, 0x6B, 0x43, 0x67, 0x18, 0xFC, 0x7D, 0x8E, 0x43, 0xD6, 0xD0, 0x0B, 0x27,
   0x0B, 0x8C, 0x00, 0xF9, 0xFF, 0x8C, 0x3C, 0xF8, 0xC6, 0x70, 0x17, 0x00, 0x4B]

/-- The fields of the device decoded from the first calibration block `b`. -/
def FirstBlockDecoded (d : Device) (b : List Nat) : Prop :=
  d.digT1 = b.getD 0 0 + 256 * b.getD 1 0 ∧
  d.digT2 = twosComplement 16 (b.getD 2 0 + 256 * b.getD 3 0) ∧
  d.digT3 = twosComplement 16 (b.getD 4 0 + 256 * b.getD 5 0) ∧
  d.digP1 = b.getD 6 0 + 256 * b.getD 7 0 ∧
  d.digP2 = twosComplement 16 (b.getD 8 0 + 256 * b.getD 9 0) ∧
  d.digP3 = twosComplement 16 (b.getD 10 0 + 256 * b.getD 11 0) ∧
  d.digP4 = twosComplement 16 (b.getD 12 0 + 256 * b.getD 13 0) ∧
  d.digP5 = twosComplement 16 (b.getD 14 0 + 256 * b.getD 15 0) ∧
  d.digP6 = twosComplement 16 (b.getD 16 0 + 256 * b.getD 17 0) ∧
  d.digP7 = twosComplement 16 (b.getD 18 0 + 256 * b.getD 19 0) ∧
  d.digP8 = twosComplement 16 (b.getD 20 0 + 256 * b.getD 21 0) ∧
  d.digP9 = twosComplement 16 (b.getD 22 0 + 256 * b.getD 23 0) ∧
  d.digH1 = b.getD 25 0

/-- The fields of the device decoded from the second calibration block `c`,
as little-endian / nibble-packed reconstructions. -/
def SecondBlockDecoded (d : Device) (c : List Nat) : Prop :=
  d.digH2 = twosComplement 16 (c.getD 0 0 + 256 * c.getD 1 0) ∧
  d.digH3 = c.getD 2 0 ∧
  d.digH4 = ((16 * c.getD 3 0 + c.getD 4 0 % 16 : Nat) : Int) ∧
  d.digH5 = ((16 * c.getD 5 0 + c.getD 4 0 / 16 : Nat) : Int) ∧
  d.digH6 = twosComplement 8 (c.getD 6 0)

/-- The 12-bit pattern of digH4: (byte3 << 4) | low nibble of byte4. -/
def patternH4 (c : List Nat) : Nat := (c.getD 3 0 <<< 4) ||| (c.getD 4 0 &&& 0x0f)

/-- The 12-bit pattern of digH5: (byte5 << 4) | high nibble of byte4. -/
def patternH5 (c : List Nat) : Nat := (c.getD 5 0 <<< 4) ||| (c.getD 4 0 >>> 4)

/-- A second calibration block with the top bit of byte 3 and of byte 5 set. -/
def sampleBlock2Neg : List Nat := [0x6A, 0x01, 0x00, 0x80, 0x20, 0xFF, 0x1E]

/-- A second calibration block of an ordinary sensor. -/
def sampleBlock2 : List Nat := [0x6A, 0x01, 0x00, 0x13, 0x2D, 0x03, 0x9E]

/-- The sample burst of the specification. -/
def sampleBurst : List Nat := [0x50, 0x2B, 0x60, 0x7A, 0x2D, 0xC0, 0x7F, 0xC3]

/-- The term `v1` of the temperature formula in exact arithmetic:
(raw/16384 - digT1/1024) * digT2. -/
def tempV1 (digT1 : Nat) (digT2 : Int) (raw : Int) : ℚ :=
  ((raw : ℚ) / 16384 - (digT1 : ℚ) / 1024) * (digT2 : ℚ)

/-- The term `v2` of the temperature formula in exact arithmetic:
(raw/131072 - digT1/8192)^2 * digT3. -/
def tempV2 (digT1 : Nat) (digT3 : Int) (raw : Int) : ℚ :=
  ((raw : ℚ) / 131072 - (digT1 : ℚ) / 8192) ^ 2 * (digT3 : ℚ)

/-- The sum `v1 + v2` of the temperature formula in exact arithmetic. -/
def tempFine (d : Device) (raw : Int) : ℚ :=
  tempV1 d.digT1 d.digT2 raw + tempV2 d.digT1 d.digT3 raw

/-- The sum `v1 + v2` of the temperature formula as `float64` arithmetic
evaluates it, every operation rounded. -/
def tempSumOf (t1 : Nat) (t2 t3 raw : Int) : ℚ :=
  fadd (fmul (fsub (fquo raw 16384) (fquo t1 1024)) t2)
    (fmul (fmul (fsub (fquo raw 131072) (fquo t1 8192))
      (fsub (fquo raw 131072) (fquo t1 8192))) t3)

/-- The `float64` sum `v1 + v2` for a device. -/
def tempSum (d : Device) (raw : Int) : ℚ := tempSumOf d.digT1 d.digT2 d.digT3 raw

/-- The denominator of the pressure formula as `compensatePres` computes it:
(1 + ((digP3*x*x/524288 + digP2*x)/524288)/32768) * digP1 with x = fineTemp/2 - 64000. -/
def presDenominator (d : Device) : ℚ :=
  let x : ℚ := fsub (fquo (d.tfine : ℚ) 2) 64000
  fmul (fadd 1 (fquo (fquo (fadd (fquo (fmul (fmul (d.digP3 : ℚ) x) x) 524288)
    (fmul (d.digP2 : ℚ) x)) 524288) 32768)) (d.digP1 : ℚ)

/-- The same denominator in exact arithmetic. -/
def presDenominatorExact (d : Device) : ℚ :=
  let x : ℚ := (d.tfine : ℚ) / 2 - 64000
  (1 + (((d.digP3 : ℚ) * x * x / 524288 + (d.digP2 : ℚ) * x) / 524288) / 32768) * (d.digP1 : ℚ)

/-- A device on which the temperature sum is rounded upward. -/
def roundingDevice : Device :=
  { Device.init NewOpt with digT1 := 0, digT2 := 16386, digT3 := -1 }

/-- A device on which the returned quotient by 5120 is rounded. -/
def inexactDevice : Device :=
  { Device.init NewOpt with digT1 := 27504, digT2 := 26436, digT3 := -1000 }

/-- A device on which the largest `int32` reading overflows the fine
temperature. -/
def overflowDevice : Device :=
  { Device.init NewOpt with digT1 := 0, digT2 := 32767, digT3 := 32767 }

/-- The calibration coefficients of two devices agree. -/
def SameCoefficients (d e : Device) : Prop :=
  d.digT1 = e.digT1 ∧ d.digT2 = e.digT2 ∧ d.digT3 = e.digT3 ∧
  d.digP1 = e.digP1 ∧ d.digP2 = e.digP2 ∧ d.digP3 = e.digP3 ∧ d.digP4 = e.digP4 ∧
  d.digP5 = e.digP5 ∧ d.digP6 = e.digP6 ∧ d.digP7 = e.digP7 ∧ d.digP8 = e.digP8 ∧
  d.digP9 = e.digP9 ∧
  d.digH1 = e.digH1 ∧ d.digH2 = e.digH2 ∧ d.digH3 = e.digH3 ∧ d.digH4 = e.digH4 ∧
  d.digH5 = e.digH5 ∧ d.digH6 = e.digH6

/-- The device of the specification's temperature example. -/
def sampleDevice : Device :=
  { Device.init NewOpt with
    calibrated := true
    digT1 := 27504, digT2 := 26435, digT3 := -1000
    digP1 := 36477, digP2 := -10685, digP3 := 3024, digP4 := 2855, digP5 := 140,
    digP6 := -7, digP7 := 15500, digP8 := -14600, digP9 := 6000
    digH1 := 75, digH2 := 362, digH3 := 0, digH4 := 317, digH5 := 50, digH6 := 30 }

/-- The body of `callibrate` that runs while the exclusive lock is held
(everything after `d.cmu.Lock()`). -/
def callibrateLocked {σ ε : Type} (bus : I2CBus σ ε) (d : Device) (w : World σ) :
    Option ε × Device × World σ :=
  match busRead bus w DeviceAddr 0x88 26 with
  | (.error err, w1) => (some err, { d with calibval := List.replicate 26 0 }, w1)
  | (.ok buf, w1) =>
    let d1 := calibratePres (calibrateTemp { d with calibval := buf })
    let d2 := { d1 with digH1 := toUint8 (d1.calibval.getD 25 0) }
    match busRead bus w1 DeviceAddr 0xe1 7 with
    | (.error err, w2) => (some err, { d2 with calibval := List.replicate 7 0 }, w2)
    | (.ok buf2, w2) =>
      let d3 := calibrateHum { d2 with calibval := buf2 }
      (none, { d3 with calibrated := true }, w2)

/-- Where a caller of `callibrate` stands: before the fast-path check under the
shared lock, past it and waiting for the exclusive lock, or returned. -/
inductive Phase where
  | start
  | waiting
  | done
  deriving Repr, DecidableEq

/-- One scheduling decision: caller `i` runs its fast-path check (the section
between `RLock` and `RUnlock`), or caller `i` takes the exclusive lock and runs
the locked body to its end. -/
inductive Action where
  | check (i : Nat)
  | locked (i : Nat)
  deriving Repr, DecidableEq

/-- The shared device, the bus and the phase of every caller. -/
structure Conc (σ : Type) where
  dev : Device
  world : World σ
  phases : List Phase

/-- One step of the interleaving of several `callibrate` calls on one device.
The two lock-protected sections are atomic; a decision that does not apply to
the caller's phase changes nothing. -/
def concStep {σ ε : Type} (bus : I2CBus σ ε) (s : Conc σ) : Action → Conc σ
  | .check i =>
    if s.phases.getD i .done = .start then
      if s.dev.calibrated then { s with phases := s.phases.set i .done }
      else { s with phases := s.phases.set i .waiting }
    else s
  | .locked i =>
    if s.phases.getD i .done = .waiting then
      let r := callibrateLocked bus s.dev s.world
      { dev := r.2.1, world := r.2.2, phases := s.phases.set i .done }
    else s

/-- A schedule run from the state in which `n` callers are about to call
`callibrate` on the device `d`. -/
def runSchedule {σ ε : Type} (bus : I2CBus σ ε) (d : Device) (w : World σ) (n : Nat)
    (sched : List Action) : Conc σ :=
  sched.foldl (concStep bus) { dev := d, world := w, phases := List.replicate n .start }

/-- A bus whose writes and reads fail with the register address as the error
when the register is `bad`; other reads return zero-filled data and other
writes succeed. -/
def failBus (bad : Nat) : I2CBus Unit Nat where
  WriteByteToReg := fun s _ reg _ => (if reg = bad then some reg else none, s)
  ReadFromReg := fun s _ reg len =>
    (if reg = bad then .error reg else .ok (List.replicate len 0), s)

/-- The three register writes of `setup`, in order. -/
def setupOps (d : Device) : List BusOp :=
  [BusOp.write 0x76 0xF2 (toUint8 d.Opt.HumidityOverSampling),
   BusOp.write 0x76 0xF4 d.Opt.MeasureReg,
   BusOp.write 0x76 0xF5 d.Opt.ConfigReg]

/-- The measurement control byte with every field masked to its width:
((T & 7) << 5) | ((P & 7) << 2) | (Mode & 3). -/
def measureRegMasked (o : BME280Opt) : Nat :=
  ((o.TemperatureOverSampling &&& 7) <<< 5) ||| ((o.PressureOverSampling &&& 7) <<< 2)
    ||| (o.Mode &&& 3)

/-- The option values inside the ranges of the register fields. -/
def ValidOpt (o : BME280Opt) : Prop :=
  o.TemperatureOverSampling < 8 ∧ o.PressureOverSampling < 8 ∧ o.Mode < 4 ∧
  o.TStandby < 8 ∧ o.Filter < 8 ∧ o.HumidityOverSampling ≤ 5

/-! ## Bit-level lemmas -/

theorem shl8_or (hi lo : Nat) (h : lo < 256) : (hi <<< 8) ||| lo = 256 * hi + lo := by
  have := Nat.mul_add_lt_is_or (i := 8) (b := lo) (by simpa using h) hi
  rw [Nat.shiftLeft_eq, Nat.mul_comm hi, ← this]

theorem shl4_or (hi lo : Nat) (h : lo < 16) : (hi <<< 4) ||| lo = 16 * hi + lo := by
  have := Nat.mul_add_lt_is_or (i := 4) (b := lo) (by simpa using h) hi
  rw [Nat.shiftLeft_eq, Nat.mul_comm hi, ← this]

theorem shl12_or (hi lo : Nat) (h : lo < 4096) : (hi <<< 12) ||| lo = 4096 * hi + lo := by
  have := Nat.mul_add_lt_is_or (i := 12) (b := lo) (by simpa using h) hi
  rw [Nat.shiftLeft_eq, Nat.mul_comm hi, ← this]

theorem low_nibble (x : Nat) : 0x0f &&& x = x % 16 := by
  rw [Nat.and_comm]
  exact Nat.and_pow_two_sub_one_eq_mod x 4

theorem high_nibble (x : Nat) : x >>> 4 = x / 16 := by
  rw [Nat.shiftRight_eq_div_pow]

theorem isBytes_getD {n : Nat} {b : List Nat} (hb : IsBytes n b) (i : Nat) :
    b.getD i 0 < 256 := by
  by_cases hi : i < b.length
  · rw [List.getD_eq_getElem b 0 hi]
    exact hb.2 _ (List.getElem_mem hi)
  · rw [List.getD_eq_default b 0 (by omega)]
    norm_num

theorem fillBuf_isBytes (n : Nat) (bs : List Nat) : IsBytes n (fillBuf n bs) := by
  refine ⟨by simp [fillBuf], ?_⟩
  intro x hx
  simp only [fillBuf, List.mem_map] at hx
  obtain ⟨i, _, rfl⟩ := hx
  exact Nat.mod_lt _ (by norm_num)

theorem fillBuf_of_isBytes {n : Nat} {b : List Nat} (hb : IsBytes n b) : fillBuf n b = b := by
  apply List.ext_getElem
  · simp [fillBuf, hb.1]
  · intro i h1 h2
    have hlt := hb.2 _ (List.getElem_mem h2)
    simp only [fillBuf, List.getElem_map, List.getElem_range]
    rw [List.getD_eq_getElem b 0 h2]
    exact Nat.mod_eq_of_lt hlt

theorem toUint16_le (lo hi : Nat) (h0 : lo < 256) (h1 : hi < 256) :
    toUint16 ((hi <<< 8) ||| lo) = lo + 256 * hi := by
  rw [shl8_or hi lo h0]
  unfold toUint16
  omega

theorem toInt16_le (lo hi : Nat) (h0 : lo < 256) :
    toInt16 ((hi <<< 8) ||| lo) = twosComplement 16 (lo + 256 * hi) := by
  rw [shl8_or hi lo h0]
  rw [Nat.add_comm (256 * hi) lo]
  unfold toInt16 twosComplement
  norm_num

/-! ## Calibration decoding: the first block -/

theorem firstBlock_decoded (d : Device) (b : List Nat) (hb : IsBytes 26 b) :
    FirstBlockDecoded
      (let d1 := calibratePres (calibrateTemp { d with calibval := b })
       { d1 with digH1 := toUint8 (d1.calibval.getD 25 0) }) b := by
  have hlt := fun i => isBytes_getD hb i
  refine ⟨?_, ?_, ?_, ?_, ?_, ?_, ?_, ?_, ?_, ?_, ?_, ?_, ?_⟩
  · exact toUint16_le _ _ (hlt 0) (hlt 1)
  · exact toInt16_le _ _ (hlt 2)
  · exact toInt16_le _ _ (hlt 4)
  · exact toUint16_le _ _ (hlt 6) (hlt 7)
  · exact toInt16_le _ _ (hlt 8)
  · exact toInt16_le _ _ (hlt 10)
  · exact toInt16_le _ _ (hlt 12)
  · exact toInt16_le _ _ (hlt 14)
  · exact toInt16_le _ _ (hlt 16)
  · exact toInt16_le _ _ (hlt 18)
  · exact toInt16_le _ _ (hlt 20)
  · exact toInt16_le _ _ (hlt 22)
  · exact Nat.mod_eq_of_lt (hlt 25)

/-- C1: for every 26-byte first calibration block `b` that the transport
returns to an uncalibrated device, the device left by `callibrate` (whether or
not the second read then succeeds) has digT1 = b[0] + 256*b[1] and
digP1 = b[6] + 256*b[7] as unsigned values, digT2, digT3 and digP2..digP9 equal
to the two's-complement 16-bit readings of their little-endian byte pairs
(digPk from bytes 2k+4, 2k+5), and digH1 = b[25]. -/
theorem callibrate_first_block {σ ε : Type} (bus : I2CBus σ ε) (w : World σ) (d : Device)
    (b : List Nat) (hd : d.calibrated = false) (hb : IsBytes 26 b)
    (hread : (bus.ReadFromReg w.st DeviceAddr 0x88 26).1 = .ok b) :
    FirstBlockDecoded (callibrate bus d w).2.1 b := by
  have key := firstBlock_decoded d b hb
  have hbuf : (busRead bus w DeviceAddr 0x88 26).1 = .ok b := by
    simp [busRead, hread, Except.map, fillBuf_of_isBytes hb]
  unfold callibrate
  rw [if_neg (by simp [hd])]
  rcases h1 : busRead bus w DeviceAddr 0x88 26 with ⟨r1, w1⟩
  rw [h1] at hbuf
  simp only at hbuf
  subst hbuf
  simp only
  rcases h2 : busRead bus w1 DeviceAddr 0xe1 7 with ⟨r2, w2⟩
  cases r2 with
  | error e => exact key
  | ok buf2 => exact key

/-- Witness for C1 on a concrete bus: the byte pair (0x70, 0x6B) decodes to
27504 and the pair (0x18, 0xFC) to -1000. -/
theorem callibrate_first_block_witness :
    (Device.init NewOpt).calibrated = false ∧ IsBytes 26 sampleBlock1 ∧
    FirstBlockDecoded
      (callibrate (constBus sampleBlock1 [] []) (Device.init NewOpt) ⟨(), []⟩).2.1 sampleBlock1 ∧
    (callibrate (constBus sampleBlock1 [] []) (Device.init NewOpt) ⟨(), []⟩).2.1.digT1 = 27504 ∧
    (callibrate (constBus sampleBlock1 [] []) (Device.init NewOpt) ⟨(), []⟩).2.1.digT3 = -1000 :=
  ⟨rfl, by decide,
    callibrate_first_block (constBus sampleBlock1 [] []) ⟨(), []⟩ (Device.init NewOpt)
      sampleBlock1 rfl (by decide) rfl,
    by decide, by decide⟩

/-! ## Calibration decoding: the second block -/

theorem secondBlock_decoded (d : Device) (c : List Nat) (hc : IsBytes 7 c) :
    SecondBlockDecoded (calibrateHum { d with calibval := c }) c := by
  have hlt := fun i => isBytes_getD hc i
  have h3 := hlt 3
  have h4 := hlt 4
  have h5 := hlt 5
  refine ⟨toInt16_le _ _ (hlt 0), Nat.mod_eq_of_lt (hlt 2), ?_, ?_, ?_⟩
  · show toInt16 ((c.getD 3 0 <<< 4) ||| (0x0f &&& c.getD 4 0)) = _
    rw [low_nibble, shl4_or _ _ (Nat.mod_lt _ (by norm_num))]
    unfold toInt16
    rw [Nat.mod_eq_of_lt (by omega), if_pos (by omega)]
  · show toInt16 ((c.getD 5 0 <<< 4) ||| (c.getD 4 0 >>> 4)) = _
    rw [high_nibble, shl4_or _ _ (by omega)]
    unfold toInt16
    rw [Nat.mod_eq_of_lt (by omega), if_pos (by omega)]
  · show toInt8 (c.getD 6 0) = _
    unfold toInt8 twosComplement
    norm_num

/-- C2: for every 7-byte second calibration block `c`, `calibrateHum` sets
digH2 to the two's-complement 16-bit reading of c[0] + 256*c[1], digH3 = c[2],
digH4 = 16*c[3] + c[4] mod 16, digH5 = 16*c[5] + c[4] div 16, and digH6 to the
two's-complement 8-bit reading of c[6]. -/
theorem calibrateHum_decodes (d : Device) (c : List Nat) (hc : IsBytes 7 c) :
    SecondBlockDecoded (calibrateHum { d with calibval := c }) c :=
  secondBlock_decoded d c hc

/-- Witness for C2 on a concrete block. -/
theorem calibrateHum_decodes_witness :
    IsBytes 7 sampleBlock2 ∧
    SecondBlockDecoded (calibrateHum { Device.init NewOpt with calibval := sampleBlock2 })
      sampleBlock2 ∧
    (calibrateHum { Device.init NewOpt with calibval := sampleBlock2 }).digH4 = 317 ∧
    (calibrateHum { Device.init NewOpt with calibval := sampleBlock2 }).digH5 = 50 ∧
    (calibrateHum { Device.init NewOpt with calibval := sampleBlock2 }).digH6 = -98 :=
  ⟨by decide, calibrateHum_decodes (Device.init NewOpt) sampleBlock2 (by decide),
    by decide, by decide, by decide⟩

/-- C3, refuted as stated: for the block with byte3 = 0x80 and byte5 = 0xFF the
decoded digH4 is 2048 and digH5 is 4082, both above 2047, while the
two's-complement readings of their 12-bit patterns are -2048 and -14. -/
theorem digH4_digH5_not_signed12 :
    IsBytes 7 sampleBlock2Neg ∧
    (calibrateHum { Device.init NewOpt with calibval := sampleBlock2Neg }).digH4 = 2048 ∧
    (calibrateHum { Device.init NewOpt with calibval := sampleBlock2Neg }).digH5 = 4082 ∧
    twosComplement 12 (patternH4 sampleBlock2Neg) = -2048 ∧
    twosComplement 12 (patternH5 sampleBlock2Neg) = -14 ∧
    ¬ ((calibrateHum { Device.init NewOpt with calibval := sampleBlock2Neg }).digH4 ≤ 2047) ∧
    ¬ ((calibrateHum { Device.init NewOpt with calibval := sampleBlock2Neg }).digH5 ≤ 2047) := by
  decide

/-- C3, amended: for every 7-byte second calibration block the decoded digH4 and
digH5 are the unsigned values of their 12-bit patterns, so they lie in 0..4095;
each equals the two's-complement reading of its pattern exactly when the top
bit of byte3 (for digH4) or byte5 (for digH5) is clear. -/
theorem digH4_digH5_unsigned12 (d : Device) (c : List Nat) (hc : IsBytes 7 c) :
    let d1 := calibrateHum { d with calibval := c }
    d1.digH4 = (patternH4 c : Int) ∧ 0 ≤ d1.digH4 ∧ d1.digH4 ≤ 4095 ∧
    d1.digH5 = (patternH5 c : Int) ∧ 0 ≤ d1.digH5 ∧ d1.digH5 ≤ 4095 ∧
    (d1.digH4 = twosComplement 12 (patternH4 c) ↔ c.getD 3 0 < 128) ∧
    (d1.digH5 = twosComplement 12 (patternH5 c) ↔ c.getD 5 0 < 128) := by
  have hlt := fun i => isBytes_getD hc i
  have h3 := hlt 3
  have h4 := hlt 4
  have h5 := hlt 5
  obtain ⟨-, -, e4, e5, -⟩ := secondBlock_decoded d c hc
  have p4 : patternH4 c = 16 * c.getD 3 0 + c.getD 4 0 % 16 := by
    unfold patternH4
    rw [Nat.and_comm, low_nibble, shl4_or _ _ (Nat.mod_lt _ (by norm_num))]
  have p5 : patternH5 c = 16 * c.getD 5 0 + c.getD 4 0 / 16 := by
    unfold patternH5
    rw [high_nibble, shl4_or _ _ (by omega)]
  intro d1
  have e4 : d1.digH4 = ((16 * c.getD 3 0 + c.getD 4 0 % 16 : Nat) : Int) := e4
  have e5 : d1.digH5 = ((16 * c.getD 5 0 + c.getD 4 0 / 16 : Nat) : Int) := e5
  rw [e4, e5, p4, p5]
  unfold twosComplement
  generalize c.getD 3 0 = b3 at *
  generalize c.getD 4 0 = b4 at *
  generalize c.getD 5 0 = b5 at *
  refine ⟨rfl, by omega, by omega, rfl, by omega, by omega, ?_, ?_⟩
  · norm_num
    constructor
    · intro h; split_ifs at h <;> omega
    · intro h; rw [if_pos (by omega)]; omega
  · norm_num
    constructor
    · intro h; split_ifs at h <;> omega
    · intro h; rw [if_pos (by omega)]; omega

/-- Witness for the amended C3 on the block with the top bits set. -/
theorem digH4_digH5_unsigned12_witness :
    IsBytes 7 sampleBlock2Neg ∧
    (calibrateHum { Device.init NewOpt with calibval := sampleBlock2Neg }).digH4
      = (patternH4 sampleBlock2Neg : Int) ∧
    (calibrateHum { Device.init NewOpt with calibval := sampleBlock2Neg }).digH4 ≤ 4095 :=
  ⟨by decide,
    (digH4_digH5_unsigned12 (Device.init NewOpt) sampleBlock2Neg (by decide)).1,
    (digH4_digH5_unsigned12 (Device.init NewOpt) sampleBlock2Neg (by decide)).2.2.1⟩

/-! ## binary64 rounding -/

theorem fl_zero : fl 0 = 0 := by simp [fl]

theorem roundNE_intCast (z : Int) : roundNE (z : ℚ) = z := by
  simp [roundNE]

theorem floor_le_roundNE (y : ℚ) : ⌊y⌋ ≤ roundNE y := by
  unfold roundNE
  split_ifs <;> omega

theorem roundNE_le_ceil (y : ℚ) : roundNE y ≤ ⌈y⌉ := by
  unfold roundNE
  split_ifs with h1 h2 h3
  · exact Int.floor_le_ceil y
  · have : (⌊y⌋ : ℚ) < y := by linarith
    have : ⌊y⌋ < ⌈y⌉ := by
      exact_mod_cast lt_of_lt_of_le this (Int.le_ceil y)
    omega
  · exact Int.floor_le_ceil y
  · have hy : y - ⌊y⌋ = 1 / 2 := le_antisymm (not_lt.mp h2) (not_lt.mp h1)
    have : (⌊y⌋ : ℚ) < y := by linarith
    have : ⌊y⌋ < ⌈y⌉ := by
      exact_mod_cast lt_of_lt_of_le this (Int.le_ceil y)
    omega

theorem roundNE_le {y : ℚ} {k : Int} (h : y ≤ k) : roundNE y ≤ k :=
  le_trans (roundNE_le_ceil y) (Int.ceil_le.mpr h)

theorem le_roundNE {y : ℚ} {k : Int} (h : (k : ℚ) ≤ y) : k ≤ roundNE y :=
  le_trans (Int.le_floor.mpr h) (floor_le_roundNE y)

theorem roundNE_eq_of_near (y : ℚ) (n : Int) (h : |y - n| < 1 / 2) : roundNE y = n := by
  rw [abs_lt] at h
  obtain ⟨h1, h2⟩ := h
  by_cases hn : (n : ℚ) ≤ y
  · have hf : ⌊y⌋ = n := by
      rw [Int.floor_eq_iff]; constructor <;> linarith
    unfold roundNE
    rw [hf, if_pos (by linarith)]
  · have hn : y < n := lt_of_not_ge hn
    have hf : ⌊y⌋ = n - 1 := by
      rw [Int.floor_eq_iff]; push_cast; constructor <;> linarith
    unfold roundNE
    rw [hf]
    push_cast
    rw [if_neg (by linarith), if_pos (by linarith)]
    omega

theorem log_bracket (x : ℚ) (hx : x ≠ 0) :
    (2 : ℚ) ^ Int.log 2 |x| ≤ |x| ∧ |x| < (2 : ℚ) ^ (Int.log 2 |x| + 1) := by
  have hpos : 0 < |x| := abs_pos.mpr hx
  have h1 := Int.zpow_log_le_self (b := 2) (r := |x|) (by norm_num) hpos
  have h2 := Int.lt_zpow_succ_log_self (b := 2) (by norm_num) |x|
  exact ⟨by exact_mod_cast h1, by exact_mod_cast h2⟩

theorem log_eq_of_bracket (x : ℚ) (e : Int) (h1 : (2 : ℚ) ^ e ≤ |x|) (h2 : |x| < (2 : ℚ) ^ (e + 1)) :
    Int.log 2 |x| = e := by
  have hpos : 0 < |x| := lt_of_lt_of_le (by positivity) h1
  have a : e ≤ Int.log 2 |x| :=
    (Int.zpow_le_iff_le_log (b := 2) (by norm_num) hpos).mp (by exact_mod_cast h1)
  have b : Int.log 2 |x| < e + 1 :=
    (Int.lt_zpow_iff_log_lt (b := 2) (by norm_num) hpos).mp (by exact_mod_cast h2)
  omega

/-- Evaluation of `fl` from the binade and the nearest scaled integer. -/
theorem fl_eval (x : ℚ) (e n : Int) (h1 : (2 : ℚ) ^ e ≤ |x|) (h2 : |x| < (2 : ℚ) ^ (e + 1))
    (h3 : |x * 2 ^ (52 - e) - n| < 1 / 2) : fl x = n / 2 ^ (52 - e) := by
  have hpos : 0 < |x| := lt_of_lt_of_le (by positivity) h1
  have hx : x ≠ 0 := abs_pos.mp hpos
  unfold fl
  rw [if_neg hx, log_eq_of_bracket x e h1 h2, roundNE_eq_of_near _ n h3]

/-- A dyadic rational with a significand below 2^53 is a binary64 value. -/
theorem fl_exact (x : ℚ) (m k : Int) (hx : x = m * 2 ^ k) (hm : |m| < 2 ^ 53) : fl x = x := by
  by_cases h0 : x = 0
  · rw [h0, fl_zero]
  unfold fl
  rw [if_neg h0]
  obtain ⟨hb1, -⟩ := log_bracket x h0
  set e := Int.log 2 |x| with he
  have hmq : |(m : ℚ)| < 2 ^ 53 := by exact_mod_cast hm
  have habs : |x| = |(m : ℚ)| * 2 ^ k := by
    rw [hx, abs_mul, abs_of_pos (by positivity : (0 : ℚ) < 2 ^ k)]
  have hlt : (2 : ℚ) ^ e < 2 ^ (53 + k) := by
    calc (2 : ℚ) ^ e ≤ |x| := hb1
      _ = |(m : ℚ)| * 2 ^ k := habs
      _ < 2 ^ 53 * 2 ^ k := by
          apply mul_lt_mul_of_pos_right hmq (by positivity)
      _ = 2 ^ (53 + k) := by
          rw [zpow_add₀ (by norm_num : (2 : ℚ) ≠ 0)]; norm_num
  have hek : e < 53 + k := (zpow_lt_zpow_iff_right₀ (by norm_num : (1 : ℚ) < 2)).mp hlt
  obtain ⟨j, hj⟩ : ∃ j : ℕ, (j : Int) = k + (52 - e) := ⟨(k + (52 - e)).toNat, by omega⟩
  have hscaled : x * 2 ^ (52 - e) = ((m * 2 ^ j : Int) : ℚ) := by
    push_cast
    rw [hx, mul_assoc, ← zpow_add₀ (by norm_num : (2 : ℚ) ≠ 0), ← hj, zpow_natCast]
  rw [hscaled, roundNE_intCast, ← hscaled]
  field_simp

theorem fl_abs_le_nat (x : ℚ) (N : ℕ) (hN : N < 2 ^ 53) (h : |x| ≤ N) : |fl x| ≤ N := by
  by_cases h0 : x = 0
  · rw [h0, fl_zero]; simp
  unfold fl
  rw [if_neg h0]
  obtain ⟨hb1, -⟩ := log_bracket x h0
  set e := Int.log 2 |x| with he
  have hNq : (N : ℚ) < 2 ^ 53 := by exact_mod_cast hN
  have hlt : (2 : ℚ) ^ e < 2 ^ (53 : Int) := by
    calc (2 : ℚ) ^ e ≤ |x| := hb1
      _ ≤ N := h
      _ < 2 ^ 53 := hNq
      _ = 2 ^ (53 : Int) := by norm_num
  have hek : e < 53 := (zpow_lt_zpow_iff_right₀ (by norm_num : (1 : ℚ) < 2)).mp hlt
  obtain ⟨j, hj⟩ : ∃ j : ℕ, (j : Int) = 52 - e := ⟨(52 - e).toNat, by omega⟩
  rw [← hj, zpow_natCast]
  have hs : (0 : ℚ) < 2 ^ j := by positivity
  rw [abs_le] at h
  have hu : roundNE (x * 2 ^ j) ≤ ((N * 2 ^ j : ℕ) : Int) := by
    apply roundNE_le
    push_cast
    exact mul_le_mul_of_nonneg_right h.2 hs.le
  have hl : -((N * 2 ^ j : ℕ) : Int) ≤ roundNE (x * 2 ^ j) := by
    apply le_roundNE
    push_cast
    have := mul_le_mul_of_nonneg_right h.1 hs.le
    linarith
  have huq : ((roundNE (x * 2 ^ j) : Int) : ℚ) ≤ N * 2 ^ j := by exact_mod_cast hu
  have hlq : -((N : ℚ) * 2 ^ j) ≤ ((roundNE (x * 2 ^ j) : Int) : ℚ) := by exact_mod_cast hl
  rw [abs_le]
  constructor
  · rw [le_div_iff₀ hs]; linarith
  · rw [div_le_iff₀ hs]; linarith

theorem roundNE_error (y : ℚ) : |(roundNE y : ℚ) - y| ≤ 1 / 2 := by
  have h1 := Int.floor_le y
  have h2 := Int.lt_floor_add_one y
  unfold roundNE
  rw [abs_le]
  split_ifs with a b c
  · constructor <;> linarith
  · push_cast; constructor <;> linarith
  · have hy : y - ⌊y⌋ = 1 / 2 := le_antisymm (not_lt.mp b) (not_lt.mp a)
    constructor <;> linarith
  · have hy : y - ⌊y⌋ = 1 / 2 := le_antisymm (not_lt.mp b) (not_lt.mp a)
    push_cast; constructor <;> linarith

/-- The rounding error of `fl` on a value below `2^k` is at most `2^(k-54)`. -/
theorem fl_error (x : ℚ) (k : Int) (h : |x| < 2 ^ k) : |fl x - x| ≤ 2 ^ (k - 54) := by
  by_cases h0 : x = 0
  · rw [h0, fl_zero]; simp; positivity
  unfold fl
  rw [if_neg h0]
  obtain ⟨hb1, -⟩ := log_bracket x h0
  set e := Int.log 2 |x| with he
  have hek : e < k := (zpow_lt_zpow_iff_right₀ (by norm_num : (1 : ℚ) < 2)).mp
    (lt_of_le_of_lt hb1 h)
  have hs : (0 : ℚ) < 2 ^ (52 - e) := by positivity
  have herr := roundNE_error (x * 2 ^ (52 - e))
  have hdiv : (roundNE (x * 2 ^ (52 - e)) : ℚ) / 2 ^ (52 - e) - x
      = ((roundNE (x * 2 ^ (52 - e)) : ℚ) - x * 2 ^ (52 - e)) / 2 ^ (52 - e) := by
    field_simp
    ring
  rw [hdiv, abs_div, abs_of_pos hs, div_le_iff₀ hs]
  have hle : (1 : ℚ) / 2 ≤ 2 ^ (k - 54) * 2 ^ (52 - e) := by
    rw [← zpow_add₀ (by norm_num : (2 : ℚ) ≠ 0)]
    have : (2 : ℚ) ^ (-1 : Int) ≤ 2 ^ (k - 54 + (52 - e)) :=
      zpow_le_zpow_right₀ (by norm_num) (by omega)
    simpa using this
  exact le_trans herr hle

/-- For a 20-bit reading and 16-bit coefficients every operation of the
temperature formula except the last product and the sum is exact. -/
theorem tempSumOf_eq (t1 : Nat) (t2 t3 raw : Int) (hraw : 0 ≤ raw ∧ raw < 1048576)
    (h1 : t1 < 65536) (h2 : -32768 ≤ t2 ∧ t2 ≤ 32767) :
    tempSumOf t1 t2 t3 raw =
      fl (((raw - 16 * t1 : Int) : ℚ) * t2 / 16384
        + fl (((raw - 16 * t1 : Int) : ℚ) * ((raw - 16 * t1 : Int) : ℚ) / 17179869184 * t3)) := by
  obtain ⟨hr0, hr1⟩ := hraw
  obtain ⟨h2a, h2b⟩ := h2
  have ha : |raw - 16 * (t1 : Int)| ≤ 1048575 := by rw [abs_le]; omega
  have e1 : fquo raw 16384 = (raw : ℚ) / 16384 :=
    fl_exact _ raw (-14) (by rw [zpow_neg]; norm_num; ring) (by rw [abs_lt]; omega)
  have e2 : fquo t1 1024 = (t1 : ℚ) / 1024 :=
    fl_exact _ t1 (-10) (by rw [zpow_neg]; norm_num; ring) (by rw [abs_lt]; omega)
  have e3 : fquo raw 131072 = (raw : ℚ) / 131072 :=
    fl_exact _ raw (-17) (by rw [zpow_neg]; norm_num; ring) (by rw [abs_lt]; omega)
  have e4 : fquo t1 8192 = (t1 : ℚ) / 8192 :=
    fl_exact _ t1 (-13) (by rw [zpow_neg]; norm_num; ring) (by rw [abs_lt]; omega)
  have e5 : fsub ((raw : ℚ) / 16384) ((t1 : ℚ) / 1024) = ((raw - 16 * t1 : Int) : ℚ) / 16384 := by
    have hx : (raw : ℚ) / 16384 - (t1 : ℚ) / 1024 = ((raw - 16 * t1 : Int) : ℚ) / 16384 := by
      push_cast; ring
    unfold fsub
    rw [hx]
    exact fl_exact _ (raw - 16 * t1) (-14) (by rw [zpow_neg]; norm_num; ring)
      (lt_of_le_of_lt ha (by norm_num))
  have e6 : fsub ((raw : ℚ) / 131072) ((t1 : ℚ) / 8192)
      = ((raw - 16 * t1 : Int) : ℚ) / 131072 := by
    have hx : (raw : ℚ) / 131072 - (t1 : ℚ) / 8192 = ((raw - 16 * t1 : Int) : ℚ) / 131072 := by
      push_cast; ring
    unfold fsub
    rw [hx]
    exact fl_exact _ (raw - 16 * t1) (-17) (by rw [zpow_neg]; norm_num; ring)
      (lt_of_le_of_lt ha (by norm_num))
  have hb2 : |t2| ≤ 32768 := by rw [abs_le]; omega
  have e7 : fmul (((raw - 16 * t1 : Int) : ℚ) / 16384) t2
      = ((raw - 16 * t1 : Int) : ℚ) * t2 / 16384 := by
    have hx : ((raw - 16 * t1 : Int) : ℚ) / 16384 * t2
        = ((raw - 16 * t1 : Int) : ℚ) * t2 / 16384 := by ring
    unfold fmul
    rw [hx]
    refine fl_exact _ ((raw - 16 * t1) * t2) (-14) (by rw [zpow_neg]; push_cast; norm_num; ring) ?_
    rw [abs_mul]
    calc |raw - 16 * (t1 : Int)| * |t2| ≤ 1048575 * 32768 :=
          mul_le_mul ha hb2 (abs_nonneg _) (by norm_num)
      _ < 2 ^ 53 := by norm_num
  have e8 : fmul (((raw - 16 * t1 : Int) : ℚ) / 131072) (((raw - 16 * t1 : Int) : ℚ) / 131072)
      = ((raw - 16 * t1 : Int) : ℚ) * ((raw - 16 * t1 : Int) : ℚ) / 17179869184 := by
    have hx : ((raw - 16 * t1 : Int) : ℚ) / 131072 * (((raw - 16 * t1 : Int) : ℚ) / 131072)
        = ((raw - 16 * t1 : Int) : ℚ) * ((raw - 16 * t1 : Int) : ℚ) / 17179869184 := by ring
    unfold fmul
    rw [hx]
    refine fl_exact _ ((raw - 16 * t1) * (raw - 16 * t1)) (-34)
      (by rw [zpow_neg]; push_cast; norm_num; ring) ?_
    rw [abs_mul]
    calc |raw - 16 * (t1 : Int)| * |raw - 16 * (t1 : Int)| ≤ 1048575 * 1048575 :=
          mul_le_mul ha ha (abs_nonneg _) (by norm_num)
      _ < 2 ^ 53 := by norm_num
  unfold tempSumOf
  rw [e1, e2, e3, e4, e5, e6, e7, e8]
  rfl

theorem tempSumOf_bounds (t1 : Nat) (t2 t3 raw : Int) (hraw : 0 ≤ raw ∧ raw < 1048576)
    (h1 : t1 < 65536) (h2 : -32768 ≤ t2 ∧ t2 ≤ 32767) (h3 : -32768 ≤ t3 ∧ t3 ≤ 32767) :
    |tempSumOf t1 t2 t3 raw| ≤ 4194302 ∧
    |tempSumOf t1 t2 t3 raw
      - (((raw - 16 * t1 : Int) : ℚ) * t2 / 16384
        + ((raw - 16 * t1 : Int) : ℚ) * ((raw - 16 * t1 : Int) : ℚ) / 17179869184 * t3)|
      ≤ 1 / 2147483648 := by
  rw [tempSumOf_eq t1 t2 t3 raw hraw h1 h2]
  have haZ : |raw - 16 * (t1 : Int)| ≤ 1048575 := by rw [abs_le]; omega
  have ha : |((raw - 16 * t1 : Int) : ℚ)| ≤ 1048575 := by exact_mod_cast haZ
  have hb2 : |(t2 : ℚ)| ≤ 32768 := by
    have : |t2| ≤ 32768 := by rw [abs_le]; omega
    exact_mod_cast this
  have hb3 : |(t3 : ℚ)| ≤ 32768 := by
    have : |t3| ≤ 32768 := by rw [abs_le]; omega
    exact_mod_cast this
  generalize ((raw - 16 * t1 : Int) : ℚ) = A at ha ⊢
  have hx1 : |A * t2 / 16384| ≤ 2097150 := by
    rw [abs_div, abs_mul, abs_of_pos (by norm_num : (0 : ℚ) < 16384), div_le_iff₀ (by norm_num)]
    calc |A| * |(t2 : ℚ)| ≤ 1048575 * 32768 := mul_le_mul ha hb2 (abs_nonneg _) (by norm_num)
      _ = 2097150 * 16384 := by norm_num
  have hx2 : |A * A / 17179869184 * t3| ≤ 2097149 := by
    rw [abs_mul, abs_div, abs_mul, abs_of_pos (by norm_num : (0 : ℚ) < 17179869184)]
    calc |A| * |A| / 17179869184 * |(t3 : ℚ)|
        ≤ 1048575 * 1048575 / 17179869184 * 32768 := by
          apply mul_le_mul _ hb3 (abs_nonneg _) (by norm_num)
          apply div_le_div_of_nonneg_right _ (by norm_num)
          exact mul_le_mul ha ha (abs_nonneg _) (by norm_num)
      _ ≤ 2097149 := by norm_num
  have hv2 : |fl (A * A / 17179869184 * t3)| ≤ ((2097152 : ℕ) : ℚ) :=
    fl_abs_le_nat _ 2097152 (by norm_num) (le_trans hx2 (by norm_num))
  have hsum : |A * t2 / 16384 + fl (A * A / 17179869184 * t3)| ≤ ((4194302 : ℕ) : ℚ) := by
    calc |A * t2 / 16384 + fl (A * A / 17179869184 * t3)|
        ≤ |A * t2 / 16384| + |fl (A * A / 17179869184 * t3)| := abs_add _ _
      _ ≤ 2097150 + ((2097152 : ℕ) : ℚ) := add_le_add hx1 hv2
      _ = ((4194302 : ℕ) : ℚ) := by norm_num
  have hfin := fl_abs_le_nat _ 4194302 (by norm_num) hsum
  refine ⟨by exact_mod_cast hfin, ?_⟩
  have err2 : |fl (A * A / 17179869184 * t3) - A * A / 17179869184 * t3| ≤ 2 ^ (21 - 54 : Int) :=
    fl_error _ 21 (lt_of_le_of_lt hx2 (by norm_num))
  have err3 : |fl (A * t2 / 16384 + fl (A * A / 17179869184 * t3))
      - (A * t2 / 16384 + fl (A * A / 17179869184 * t3))| ≤ 2 ^ (22 - 54 : Int) :=
    fl_error _ 22 (lt_of_le_of_lt hsum (by norm_num))
  have hsplit : fl (A * t2 / 16384 + fl (A * A / 17179869184 * t3))
      - (A * t2 / 16384 + A * A / 17179869184 * t3)
      = (fl (A * t2 / 16384 + fl (A * A / 17179869184 * t3))
          - (A * t2 / 16384 + fl (A * A / 17179869184 * t3)))
        + (fl (A * A / 17179869184 * t3) - A * A / 17179869184 * t3) := by ring
  rw [hsplit]
  calc _ ≤ _ := abs_add _ _
    _ ≤ 2 ^ (22 - 54 : Int) + 2 ^ (21 - 54 : Int) := add_le_add err3 err2
    _ ≤ 1 / 2147483648 := by norm_num

theorem tempSumOf_sample : tempSumOf 27504 26435 (-1000) 519888 = 1077284224155 / 8388608 := by
  rw [tempSumOf_eq _ _ _ _ (by norm_num) (by norm_num) (by norm_num)]
  have e1 : fl (((519888 - 16 * (27504 : ℕ) : Int) : ℚ) * ((519888 - 16 * (27504 : ℕ) : Int) : ℚ)
      / 17179869184 * ((-1000 : Int) : ℚ)) = -6371870976000 / 17179869184 := by
    have hx : ((519888 - 16 * (27504 : ℕ) : Int) : ℚ) * ((519888 - 16 * (27504 : ℕ) : Int) : ℚ)
      / 17179869184 * ((-1000 : Int) : ℚ) = -6371870976000 / 17179869184 := by norm_num
    rw [hx]
    exact fl_exact _ (-6371870976000) (-34) (by rw [zpow_neg]; norm_num) (by norm_num)
  rw [e1]
  have hx : ((519888 - 16 * (27504 : ℕ) : Int) : ℚ) * ((26435 : Int) : ℚ) / 16384
      + -6371870976000 / 17179869184 = 1077284224155 / 8388608 := by norm_num
  rw [hx]
  exact fl_exact _ 1077284224155 (-23) (by rw [zpow_neg]; norm_num) (by norm_num)

theorem tempSumOf_inexact : tempSumOf 27504 26436 (-1000) 519888 = 1077325094043 / 8388608 := by
  rw [tempSumOf_eq _ _ _ _ (by norm_num) (by norm_num) (by norm_num)]
  have e1 : fl (((519888 - 16 * (27504 : ℕ) : Int) : ℚ) * ((519888 - 16 * (27504 : ℕ) : Int) : ℚ)
      / 17179869184 * ((-1000 : Int) : ℚ)) = -6371870976000 / 17179869184 := by
    have hx : ((519888 - 16 * (27504 : ℕ) : Int) : ℚ) * ((519888 - 16 * (27504 : ℕ) : Int) : ℚ)
      / 17179869184 * ((-1000 : Int) : ℚ) = -6371870976000 / 17179869184 := by norm_num
    rw [hx]
    exact fl_exact _ (-6371870976000) (-34) (by rw [zpow_neg]; norm_num) (by norm_num)
  rw [e1]
  have hx : ((519888 - 16 * (27504 : ℕ) : Int) : ℚ) * ((26436 : Int) : ℚ) / 16384
      + -6371870976000 / 17179869184 = 1077325094043 / 8388608 := by norm_num
  rw [hx]
  exact fl_exact _ 1077325094043 (-23) (by rw [zpow_neg]; norm_num) (by norm_num)

theorem tempSumOf_rounds : tempSumOf 0 16386 (-1) 1048575 = 1048639 := by
  rw [tempSumOf_eq _ _ _ _ (by norm_num) (by norm_num) (by norm_num)]
  have e1 : fl (((1048575 - 16 * (0 : ℕ) : Int) : ℚ) * ((1048575 - 16 * (0 : ℕ) : Int) : ℚ)
      / 17179869184 * ((-1 : Int) : ℚ)) = -1099509530625 / 17179869184 := by
    have hx : ((1048575 - 16 * (0 : ℕ) : Int) : ℚ) * ((1048575 - 16 * (0 : ℕ) : Int) : ℚ)
      / 17179869184 * ((-1 : Int) : ℚ) = -1099509530625 / 17179869184 := by norm_num
    rw [hx]
    exact fl_exact _ (-1099509530625) (-34) (by rw [zpow_neg]; norm_num) (by norm_num)
  rw [e1]
  have hx : ((1048575 - 16 * (0 : ℕ) : Int) : ℚ) * ((16386 : Int) : ℚ) / 16384
      + -1099509530625 / 17179869184 = 18015480841240575 / 17179869184 := by norm_num
  rw [hx]
  have := fl_eval (18015480841240575 / 17179869184) 20 4503870210310144
    (by rw [abs_of_pos (by norm_num)]; norm_num) (by rw [abs_of_pos (by norm_num)]; norm_num)
    (by rw [abs_lt]; constructor <;> norm_num)
  rw [this]
  norm_num

theorem tempSumOf_overflows : tempSumOf 0 32767 32767 2147483647 = 35200477659129 / 4 := by
  have e1 : fquo ((2147483647 : Int) : ℚ) 16384 = 2147483647 / 16384 :=
    fl_exact _ 2147483647 (-14) (by rw [zpow_neg]; norm_num) (by norm_num)
  have e3 : fquo ((2147483647 : Int) : ℚ) 131072 = 2147483647 / 131072 :=
    fl_exact _ 2147483647 (-17) (by rw [zpow_neg]; norm_num) (by norm_num)
  have z1 : fquo ((0 : ℕ) : ℚ) 1024 = 0 := by simp [fquo, fl_zero]
  have z2 : fquo ((0 : ℕ) : ℚ) 8192 = 0 := by simp [fquo, fl_zero]
  have e5 : fsub (2147483647 / 16384) 0 = 2147483647 / 16384 := by
    unfold fsub; rw [sub_zero]
    exact fl_exact _ 2147483647 (-14) (by rw [zpow_neg]; norm_num) (by norm_num)
  have e6 : fsub (2147483647 / 131072) 0 = 2147483647 / 131072 := by
    unfold fsub; rw [sub_zero]
    exact fl_exact _ 2147483647 (-17) (by rw [zpow_neg]; norm_num) (by norm_num)
  have e7 : fmul (2147483647 / 16384) ((32767 : Int) : ℚ) = 70366596661249 / 16384 := by
    unfold fmul
    exact (fl_exact _ 70366596661249 (-14) (by rw [zpow_neg]; norm_num) (by norm_num)).trans
      (by norm_num)
  have e8 : fmul (2147483647 / 131072) (2147483647 / 131072) = 1073741823 / 4 := by
    unfold fmul
    have := fl_eval (2147483647 / 131072 * (2147483647 / 131072)) 27 9007199246352384
      (by rw [abs_of_pos (by norm_num)]; norm_num) (by rw [abs_of_pos (by norm_num)]; norm_num)
      (by rw [abs_lt]; constructor <;> norm_num)
    rw [this]
    norm_num
  have e9 : fmul (1073741823 / 4) ((32767 : Int) : ℚ) = 35183298314241 / 4 := by
    unfold fmul
    exact (fl_exact _ 35183298314241 (-2) (by rw [zpow_neg]; norm_num) (by norm_num)).trans
      (by norm_num)
  have e10 : fadd (70366596661249 / 16384) (35183298314241 / 4) = 35200477659129 / 4 := by
    unfold fadd
    have := fl_eval (70366596661249 / 16384 + 35183298314241 / 4) 43 4505661140368512
      (by rw [abs_of_pos (by norm_num)]; norm_num) (by rw [abs_of_pos (by norm_num)]; norm_num)
      (by rw [abs_lt]; constructor <;> norm_num)
    rw [this]
    norm_num
  unfold tempSumOf
  rw [e1, e3, z1, z2, e5, e6, e7, e8, e9, e10]

/-! ## Temperature compensation -/

theorem truncToZero_abs_le (x : ℚ) : |((truncToZero x : Int) : ℚ)| ≤ |x| := by
  unfold truncToZero
  split_ifs with h
  · have h0 : (0 : ℚ) ≤ ((⌊x⌋ : Int) : ℚ) := by exact_mod_cast Int.floor_nonneg.mpr h
    rw [abs_of_nonneg h0, abs_of_nonneg h]
    exact Int.floor_le x
  · have hx : x < 0 := lt_of_not_ge h
    have h0 : ((⌈x⌉ : Int) : ℚ) ≤ 0 := by exact_mod_cast Int.ceil_le.mpr (by simpa using hx.le)
    rw [abs_of_nonpos h0, abs_of_neg hx]
    linarith [Int.le_ceil x]

theorem truncToZero_abs_sub_lt (x : ℚ) : |x - ((truncToZero x : Int) : ℚ)| < 1 := by
  unfold truncToZero
  split_ifs with h
  · rw [abs_lt]
    constructor <;> linarith [Int.floor_le x, Int.lt_floor_add_one x]
  · rw [abs_lt]
    constructor <;> linarith [Int.le_ceil x, Int.ceil_lt_add_one x]

theorem truncToZero_intCast (z : Int) : truncToZero (z : ℚ) = z := by
  unfold truncToZero
  split_ifs <;> simp

theorem float64ToInt32_of_fits (x : ℚ) (h : FitsInt32 (truncToZero x)) :
    float64ToInt32 x = truncToZero x := by
  unfold float64ToInt32
  rw [if_pos h]

theorem float64ToInt32_of_not_fits (x : ℚ) (h : ¬ FitsInt32 (truncToZero x)) :
    float64ToInt32 x = -2147483648 := by
  unfold float64ToInt32
  rw [if_neg h]

theorem fitsInt32_of_abs_le (x : ℚ) (h : |x| ≤ 4194302) : FitsInt32 (truncToZero x) := by
  have h1 := truncToZero_abs_le x
  have h2 : |((truncToZero x : Int) : ℚ)| ≤ 4194302 := le_trans h1 h
  rw [abs_le] at h2
  have h3 : (-4194302 : Int) ≤ truncToZero x := by exact_mod_cast h2.1
  have h4 : truncToZero x ≤ (4194302 : Int) := by exact_mod_cast h2.2
  unfold FitsInt32
  constructor <;> omega

theorem compensateTemp_eq (d : Device) (raw : Int) :
    compensateTemp d raw =
      (fquo (tempSum d raw) 5120, { d with tfine := float64ToInt32 (tempSum d raw) }) := rfl

theorem tempFine_eq (d : Device) (raw : Int) :
    tempFine d raw =
      ((raw - 16 * d.digT1 : Int) : ℚ) * d.digT2 / 16384
        + ((raw - 16 * d.digT1 : Int) : ℚ) * ((raw - 16 * d.digT1 : Int) : ℚ) / 17179869184
          * d.digT3 := by
  unfold tempFine tempV1 tempV2
  push_cast
  ring

theorem fquo_inexact :
    fquo (1077325094043 / 8388608) 5120 = 7060357736320205 / 281474976710656 := by
  unfold fquo
  have := fl_eval (1077325094043 / 8388608 / 5120) 4 7060357736320205
    (by rw [abs_of_pos (by norm_num)]; norm_num) (by rw [abs_of_pos (by norm_num)]; norm_num)
    (by rw [abs_lt]; constructor <;> norm_num)
  rw [this]
  norm_num

/-- C4, refuted as stated. With digT1 = 0, digT2 = 16386, digT3 = -1 and
raw = 1048575 the exact value of v1 + v2 is 1048639 - 2^-34, whose truncation is
1048638, while `compensateTemp` stores 1048639: the `float64` sum is rounded.
With digT1 = 27504, digT2 = 26436, digT3 = -1000 and raw = 519888 the returned
value 7060357736320205/2^48 differs from the exact (v1 + v2)/5120. With
digT1 = 0, digT2 = digT3 = 32767 and raw = 2147483647 the `float64` sum is
8800119414782.25, its truncation is no `int32` value, and `compensateTemp`
stores -2147483648. -/
theorem compensateTemp_not_exact :
    tempFine roundingDevice 1048575 = 1048639 - 1 / 17179869184 ∧
    truncToZero (tempFine roundingDevice 1048575) = 1048638 ∧
    (compensateTemp roundingDevice 1048575).2.tfine = 1048639 ∧
    (compensateTemp inexactDevice 519888).1 = 7060357736320205 / 281474976710656 ∧
    (compensateTemp inexactDevice 519888).1 ≠ tempFine inexactDevice 519888 / 5120 ∧
    tempSum overflowDevice 2147483647 = 35200477659129 / 4 ∧
    truncToZero (tempSum overflowDevice 2147483647) = 8800119414782 ∧
    (compensateTemp overflowDevice 2147483647).2.tfine = -2147483648 := by
  have hA : tempFine roundingDevice 1048575 = 1048639 - 1 / 17179869184 := by
    simp only [tempFine, tempV1, tempV2, roundingDevice, Device.init]
    norm_num
  have hC : tempFine inexactDevice 519888 = 1077325094043 / 8388608 := by
    simp only [tempFine, tempV1, tempV2, inexactDevice, Device.init]
    norm_num
  have hAs : tempSum roundingDevice 1048575 = 1048639 := tempSumOf_rounds
  have hCs : tempSum inexactDevice 519888 = 1077325094043 / 8388608 := tempSumOf_inexact
  have hBs : tempSum overflowDevice 2147483647 = 35200477659129 / 4 := tempSumOf_overflows
  have hBt : truncToZero ((35200477659129 : ℚ) / 4) = 8800119414782 := by
    unfold truncToZero
    rw [if_pos (by norm_num), Int.floor_eq_iff]
    constructor <;> norm_num
  have hCq : (compensateTemp inexactDevice 519888).1 = 7060357736320205 / 281474976710656 := by
    rw [compensateTemp_eq, hCs]
    exact fquo_inexact
  refine ⟨hA, ?_, ?_, hCq, ?_, hBs, ?_, ?_⟩
  · rw [hA]
    unfold truncToZero
    rw [if_pos (by norm_num), Int.floor_eq_iff]
    constructor <;> norm_num
  · rw [compensateTemp_eq, hAs]
    show float64ToInt32 1048639 = 1048639
    have h := truncToZero_intCast 1048639
    push_cast at h
    rw [float64ToInt32_of_fits _ (by rw [h]; unfold FitsInt32; norm_num), h]
  · rw [hCq, hC]
    norm_num
  · rw [hBs, hBt]
  · rw [compensateTemp_eq, hBs]
    show float64ToInt32 (35200477659129 / 4) = -2147483648
    exact float64ToInt32_of_not_fits _ (by rw [hBt]; unfold FitsInt32; norm_num)

/-- C4, amended. `compensateTemp` evaluates v1 = (raw/16384 - digT1/1024) * digT2
and v2 = (raw/131072 - digT1/8192) * (raw/131072 - digT1/8192) * digT3 in
`float64` arithmetic, every operation rounded, and returns the rounded quotient
of the rounded sum v1 + v2 by 5120. It stores the truncation toward zero of
that rounded sum when the truncation is an `int32` value, and -2147483648
otherwise. For a reading below 2^20 and 16-bit coefficients the truncation is
an `int32` value and the rounded sum is within 2^-31 of the exact v1 + v2. A
device with the same digT1, digT2, digT3 gives the same temperature and the
same fine temperature, whatever its other fields. -/
theorem compensateTemp_spec (d e : Device) (raw : Int)
    (h1 : e.digT1 = d.digT1) (h2 : e.digT2 = d.digT2) (h3 : e.digT3 = d.digT3) :
    tempSum d raw =
      fadd (fmul (fsub (fquo raw 16384) (fquo d.digT1 1024)) d.digT2)
        (fmul (fmul (fsub (fquo raw 131072) (fquo d.digT1 8192))
          (fsub (fquo raw 131072) (fquo d.digT1 8192))) d.digT3) ∧
    (compensateTemp d raw).1 = fquo (tempSum d raw) 5120 ∧
    (FitsInt32 (truncToZero (tempSum d raw)) →
      (compensateTemp d raw).2.tfine = truncToZero (tempSum d raw) ∧
      |(((compensateTemp d raw).2.tfine : Int) : ℚ)| ≤ |tempSum d raw| ∧
      |tempSum d raw - (((compensateTemp d raw).2.tfine : Int) : ℚ)| < 1) ∧
    (¬ FitsInt32 (truncToZero (tempSum d raw)) →
      (compensateTemp d raw).2.tfine = -2147483648) ∧
    (0 ≤ raw ∧ raw < 1048576 → d.digT1 < 65536 → -32768 ≤ d.digT2 ∧ d.digT2 ≤ 32767 →
      -32768 ≤ d.digT3 ∧ d.digT3 ≤ 32767 →
      FitsInt32 (truncToZero (tempSum d raw)) ∧
      |tempSum d raw - tempFine d raw| ≤ 1 / 2147483648) ∧
    (compensateTemp e raw).1 = (compensateTemp d raw).1 ∧
    (compensateTemp e raw).2.tfine = (compensateTemp d raw).2.tfine := by
  have he : tempSum e raw = tempSum d raw := by
    simp only [tempSum, h1, h2, h3]
  refine ⟨rfl, rfl, ?_, ?_, ?_, ?_, ?_⟩
  · intro hfit
    have ht : (compensateTemp d raw).2.tfine = truncToZero (tempSum d raw) := by
      rw [compensateTemp_eq]
      exact float64ToInt32_of_fits _ hfit
    rw [ht]
    exact ⟨rfl, truncToZero_abs_le _, truncToZero_abs_sub_lt _⟩
  · intro hfit
    rw [compensateTemp_eq]
    exact float64ToInt32_of_not_fits _ hfit
  · intro hraw ht1 ht2 ht3
    obtain ⟨hb, herr⟩ := tempSumOf_bounds d.digT1 d.digT2 d.digT3 raw hraw ht1 ht2 ht3
    refine ⟨fitsInt32_of_abs_le _ hb, ?_⟩
    rw [tempFine_eq]
    exact herr
  · rw [compensateTemp_eq, compensateTemp_eq, he]
  · rw [compensateTemp_eq, compensateTemp_eq, he]

/-- Witness for the amended C4 on the specification's example inputs: every
operation is exact there, the returned temperature is 215456844831/2^33 and
the stored fine temperature is 128422. -/
theorem compensateTemp_spec_witness :
    (compensateTemp sampleDevice 519888).1 = fquo (tempSum sampleDevice 519888) 5120 ∧
    tempSum sampleDevice 519888 = 1077284224155 / 8388608 ∧
    (compensateTemp sampleDevice 519888).2.tfine = 128422 ∧
    |tempSum sampleDevice 519888 - tempFine sampleDevice 519888| ≤ 1 / 2147483648 :=
  have hv : tempSum sampleDevice 519888 = 1077284224155 / 8388608 := tempSumOf_sample
  have ht : truncToZero (tempSum sampleDevice 519888) = 128422 := by
    rw [hv]
    unfold truncToZero
    rw [if_pos (by norm_num), Int.floor_eq_iff]
    constructor <;> norm_num
  have h := compensateTemp_spec sampleDevice sampleDevice 519888 rfl rfl rfl
  have hfit : FitsInt32 (truncToZero (tempSum sampleDevice 519888)) := by
    rw [ht]; unfold FitsInt32; norm_num
  ⟨h.2.1, hv, ((h.2.2.1 hfit).1).trans ht,
    (h.2.2.2.2.1 (by decide) (by decide) (by decide) (by decide)).2⟩

/-- C5: with digT1 = 27504, digT2 = 26435, digT3 = -1000 and raw = 519888 (the
other fields of the device arbitrary), `compensateTemp` returns a temperature
within 0.01 of 25.08 and stores the fine temperature 128422. -/
theorem compensateTemp_example (d : Device) :
    |(compensateTemp { d with digT1 := 27504, digT2 := 26435, digT3 := -1000 } 519888).1
        - 25.08| ≤ 0.01 ∧
    (compensateTemp { d with digT1 := 27504, digT2 := 26435, digT3 := -1000 } 519888).2.tfine
      = 128422 := by
  have hv : tempSum { d with digT1 := 27504, digT2 := 26435, digT3 := -1000 } 519888
      = 1077284224155 / 8388608 := tempSumOf_sample
  have hq : fquo (1077284224155 / 8388608) 5120 = 215456844831 / 8589934592 := by
    unfold fquo
    exact (fl_exact _ 215456844831 (-33) (by rw [zpow_neg]; norm_num) (by norm_num)).trans
      (by norm_num)
  rw [compensateTemp_eq, hv, hq]
  constructor
  · show |(215456844831 / 8589934592 : ℚ) - 25.08| ≤ 0.01
    rw [abs_le]
    constructor <;> norm_num
  · show float64ToInt32 (1077284224155 / 8388608) = 128422
    have ht : truncToZero ((1077284224155 : ℚ) / 8388608) = 128422 := by
      unfold truncToZero
      rw [if_pos (by norm_num), Int.floor_eq_iff]
      constructor <;> norm_num
    rw [float64ToInt32_of_fits _ (by rw [ht]; unfold FitsInt32; norm_num), ht]

/-! ## Humidity compensation -/

/-- C6: for every raw humidity reading, every stored fine temperature and every
digH1..digH6, the value returned by `compensateHum` lies in the closed range
[0, 100], the degenerate branch (fine temperature 76800) included. -/
theorem compensateHum_range (d : Device) (raw : Int) :
    0 ≤ compensateHum d raw ∧ compensateHum d raw ≤ 100 := by
  unfold compensateHum
  simp only
  split_ifs with h0 h1 h2
  · norm_num
  · norm_num
  · exact ⟨le_of_not_lt h2, le_of_not_lt h1⟩
  · norm_num

/-- C8: for every raw humidity reading and every digH1..digH6, `compensateHum`
returns exactly 0 when the stored fine temperature equals 76800. -/
theorem compensateHum_degenerate (d : Device) (raw : Int) (h : d.tfine = 76800) :
    compensateHum d raw = 0 := by
  unfold compensateHum
  simp [h, fsub, fl_zero]

/-- Witness for C8: the sample device with fine temperature 76800 and the raw
humidity reading 0x7FC3. -/
theorem compensateHum_degenerate_witness :
    ({ sampleDevice with tfine := 76800 } : Device).tfine = 76800 ∧
    compensateHum { sampleDevice with tfine := 76800 } 32707 = 0 :=
  ⟨rfl, compensateHum_degenerate { sampleDevice with tfine := 76800 } 32707 rfl⟩

/-! ## Pressure compensation -/

theorem compensatePres_eq (d : Device) (raw : Int) :
    compensatePres d raw =
      if presDenominator d ≠ 0 then
        (fdiv (fmul (fsub (fsub 1048576 (raw : ℚ))
            (fquo (fadd (fquo (fadd (fquo (fmul (fmul (fsub (fquo (d.tfine : ℚ) 2) 64000)
              (fsub (fquo (d.tfine : ℚ) 2) 64000)) (d.digP6 : ℚ)) 32768)
              (fmul (fmul (fsub (fquo (d.tfine : ℚ) 2) 64000) (d.digP5 : ℚ)) 2)) 4)
              (fmul (d.digP4 : ℚ) 65536)) 4096)) 6250) (presDenominator d)).map
          fun pres =>
            fadd pres (fquo (fadd (fadd (fquo (fmul (fmul (d.digP9 : ℚ) pres) pres) 2147483648)
              (fquo (fmul pres (d.digP8 : ℚ)) 32768)) (d.digP7 : ℚ)) 16)
      else some 0 := rfl

theorem natAbs_pow_two_of_mul (y z : Int) (h : y * z = -(2 ^ 55)) :
    ∃ j : ℕ, j ≤ 55 ∧ y.natAbs = 2 ^ j := by
  have hd : y.natAbs ∣ 2 ^ 55 := by
    have h1 : y ∣ -(2 ^ 55 : Int) := ⟨z, h.symm⟩
    have h2 : y ∣ (2 ^ 55 : Int) := (Int.dvd_neg).mp h1
    have h3 := Int.natAbs_dvd_natAbs.mpr h2
    simpa using h3
  exact (Nat.dvd_prime_pow Nat.prime_two).mp hd

/-- When the exact denominator factor 1 + w/32768 of the pressure formula is
zero, the `float64` evaluation of it is zero as well: the base value is then a
power of two and every operation is exact. -/
theorem presFactor_zero (tf p2 p3 : Int) (htf : -2147483648 ≤ tf ∧ tf ≤ 2147483647)
    (hp2 : -32768 ≤ p2 ∧ p2 ≤ 32767) (hp3 : -32768 ≤ p3 ∧ p3 ≤ 32767)
    (h : 1 + ((p3 : ℚ) * ((tf : ℚ) / 2 - 64000) * ((tf : ℚ) / 2 - 64000) / 524288
      + (p2 : ℚ) * ((tf : ℚ) / 2 - 64000)) / 524288 / 32768 = 0) :
    fadd 1 (fquo (fquo (fadd
      (fquo (fmul (fmul (p3 : ℚ) (fsub (fquo (tf : ℚ) 2) 64000)) (fsub (fquo (tf : ℚ) 2) 64000))
        524288)
      (fmul (p2 : ℚ) (fsub (fquo (tf : ℚ) 2) 64000))) 524288) 32768) = 0 := by
  obtain ⟨htf0, htf1⟩ := htf
  obtain ⟨hp20, hp21⟩ := hp2
  obtain ⟨hp30, hp31⟩ := hp3
  -- the integer form of the hypothesis
  have hq : ((tf - 128000 : Int) : ℚ) * ((p3 * (tf - 128000) + 1048576 * p2 : Int) : ℚ)
      = ((-(2 ^ 55) : Int) : ℚ) := by
    push_cast
    have := h
    field_simp at this
    linarith
  have hz : (tf - 128000) * (p3 * (tf - 128000) + 1048576 * p2) = -(2 ^ 55) := by
    exact_mod_cast hq
  obtain ⟨j, hj55, hj⟩ := natAbs_pow_two_of_mul _ _ hz
  have hjlt : (2 : ℕ) ^ j < 2 ^ 32 := by
    rw [← hj]
    omega
  have hj32 : j < 32 := (Nat.pow_lt_pow_iff_right (by norm_num)).mp hjlt
  -- the square of the base value
  have hsq : ((tf - 128000 : Int) : ℚ) * ((tf - 128000 : Int) : ℚ) = (2 : ℚ) ^ ((2 * j : ℕ) : Int) := by
    have h1 : (tf - 128000) * (tf - 128000) = ((2 ^ (2 * j) : ℕ) : Int) := by
      rw [← Int.natAbs_mul_self' (tf - 128000), hj]
      push_cast
      ring
    have h2 : ((tf - 128000 : Int) : ℚ) * ((tf - 128000 : Int) : ℚ)
        = (((tf - 128000) * (tf - 128000) : Int) : ℚ) := by push_cast; ring
    rw [h2, h1, zpow_natCast]
    push_cast
    rfl
  have e1 : fquo (tf : ℚ) 2 = (tf : ℚ) / 2 :=
    fl_exact _ tf (-1) (by rw [zpow_neg]; norm_num; ring) (by rw [abs_lt]; omega)
  have e2 : fsub ((tf : ℚ) / 2) 64000 = ((tf - 128000 : Int) : ℚ) / 2 := by
    have hx : (tf : ℚ) / 2 - 64000 = ((tf - 128000 : Int) : ℚ) / 2 := by push_cast; ring
    unfold fsub
    rw [hx]
    exact fl_exact _ (tf - 128000) (-1) (by rw [zpow_neg]; norm_num; ring) (by rw [abs_lt]; omega)
  have hyabs : |tf - 128000| < 2 ^ 33 := by rw [abs_lt]; omega
  have e3 : fmul (p3 : ℚ) (((tf - 128000 : Int) : ℚ) / 2)
      = (p3 : ℚ) * ((tf - 128000 : Int) : ℚ) / 2 := by
    have hx : (p3 : ℚ) * (((tf - 128000 : Int) : ℚ) / 2)
        = (p3 : ℚ) * ((tf - 128000 : Int) : ℚ) / 2 := by ring
    unfold fmul
    rw [hx]
    refine fl_exact _ (p3 * (tf - 128000)) (-1) (by rw [zpow_neg]; push_cast; norm_num; ring) ?_
    rw [abs_mul]
    have hp3a : |p3| ≤ 32768 := by rw [abs_le]; omega
    calc |p3| * |tf - 128000| ≤ 32768 * 2 ^ 33 :=
          mul_le_mul hp3a hyabs.le (abs_nonneg _) (by norm_num)
      _ < 2 ^ 53 := by norm_num
  have e4 : fmul ((p3 : ℚ) * ((tf - 128000 : Int) : ℚ) / 2) (((tf - 128000 : Int) : ℚ) / 2)
      = (p3 : ℚ) * 2 ^ (((2 * j : ℕ) : Int) - 2) := by
    have hx : (p3 : ℚ) * ((tf - 128000 : Int) : ℚ) / 2 * (((tf - 128000 : Int) : ℚ) / 2)
        = (p3 : ℚ) * 2 ^ (((2 * j : ℕ) : Int) - 2) := by
      rw [zpow_sub₀ (by norm_num : (2 : ℚ) ≠ 0), ← hsq]
      norm_num
      ring
    unfold fmul
    rw [hx]
    exact fl_exact _ p3 (((2 * j : ℕ) : Int) - 2) rfl (by rw [abs_lt]; omega)
  have e5 : fquo ((p3 : ℚ) * 2 ^ (((2 * j : ℕ) : Int) - 2)) 524288
      = (p3 : ℚ) * 2 ^ (((2 * j : ℕ) : Int) - 21) := by
    have hx : (p3 : ℚ) * 2 ^ (((2 * j : ℕ) : Int) - 2) / 524288
        = (p3 : ℚ) * 2 ^ (((2 * j : ℕ) : Int) - 21) := by
      rw [zpow_sub₀ (by norm_num : (2 : ℚ) ≠ 0), zpow_sub₀ (by norm_num : (2 : ℚ) ≠ 0)]
      norm_num
      ring
    unfold fquo
    rw [hx]
    exact fl_exact _ p3 (((2 * j : ℕ) : Int) - 21) rfl (by rw [abs_lt]; omega)
  have e6 : fmul (p2 : ℚ) (((tf - 128000 : Int) : ℚ) / 2)
      = (p2 : ℚ) * ((tf - 128000 : Int) : ℚ) / 2 := by
    have hx : (p2 : ℚ) * (((tf - 128000 : Int) : ℚ) / 2)
        = (p2 : ℚ) * ((tf - 128000 : Int) : ℚ) / 2 := by ring
    unfold fmul
    rw [hx]
    refine fl_exact _ (p2 * (tf - 128000)) (-1) (by rw [zpow_neg]; push_cast; norm_num; ring) ?_
    rw [abs_mul]
    have hp2a : |p2| ≤ 32768 := by rw [abs_le]; omega
    calc |p2| * |tf - 128000| ≤ 32768 * 2 ^ 33 :=
          mul_le_mul hp2a hyabs.le (abs_nonneg _) (by norm_num)
      _ < 2 ^ 53 := by norm_num
  have hsum : (p3 : ℚ) * 2 ^ (((2 * j : ℕ) : Int) - 21) + (p2 : ℚ) * ((tf - 128000 : Int) : ℚ) / 2
      = -17179869184 := by
    have h21 : (2 : ℚ) ^ (((2 * j : ℕ) : Int) - 21)
        = ((tf - 128000 : Int) : ℚ) * ((tf - 128000 : Int) : ℚ) / 2097152 := by
      rw [zpow_sub₀ (by norm_num : (2 : ℚ) ≠ 0), ← hsq]
      norm_num
    rw [h21]
    have := hq
    push_cast at this ⊢
    linarith
  have e7 : fadd ((p3 : ℚ) * 2 ^ (((2 * j : ℕ) : Int) - 21))
      ((p2 : ℚ) * ((tf - 128000 : Int) : ℚ) / 2) = -17179869184 := by
    unfold fadd
    rw [hsum]
    exact fl_exact _ (-17179869184) 0 (by norm_num) (by norm_num)
  have e8 : fquo (-17179869184) 524288 = -32768 := by
    unfold fquo
    exact (fl_exact _ (-32768) 0 (by norm_num) (by norm_num)).trans (by norm_num)
  have e9 : fquo (-32768) 32768 = -1 := by
    unfold fquo
    exact (fl_exact _ (-1) 0 (by norm_num) (by norm_num)).trans (by norm_num)
  rw [e1, e2, e3, e4, e5, e6, e7, e8, e9]
  unfold fadd
  norm_num [fl_zero]

/-- C7: `compensatePres` returns exactly 0 whenever its denominator
v1 = (1 + ((digP3*x*x/524288 + digP2*x)/524288)/32768) * digP1, with
x = fineTemp/2 - 64000, is zero, both for the value `compensatePres` computes
and (with an `int32` fine temperature and 16-bit digP2, digP3) for the exact
value of the formula; in particular it returns 0 whenever digP1 = 0; and it
always returns a value, that is, the checked division by v1 is never reached
with v1 = 0. -/
theorem compensatePres_zero_denominator (d : Device) (raw : Int) :
    (presDenominator d = 0 → compensatePres d raw = some 0) ∧
    (d.digP1 = 0 → compensatePres d raw = some 0) ∧
    (∃ p, compensatePres d raw = some p) ∧
    (-2147483648 ≤ d.tfine ∧ d.tfine ≤ 2147483647 → -32768 ≤ d.digP2 ∧ d.digP2 ≤ 32767 →
      -32768 ≤ d.digP3 ∧ d.digP3 ≤ 32767 → presDenominatorExact d = 0 →
      compensatePres d raw = some 0) := by
  have hz : presDenominator d = 0 → compensatePres d raw = some 0 := by
    intro h
    rw [compensatePres_eq, if_neg (by simpa using h)]
  have hp1 : d.digP1 = 0 → compensatePres d raw = some 0 := by
    intro h
    apply hz
    simp [presDenominator, fmul, h, fl_zero]
  refine ⟨hz, hp1, ?_, ?_⟩
  · by_cases h : presDenominator d = 0
    · exact ⟨0, hz h⟩
    · rw [compensatePres_eq, if_pos h]
      simp [fdiv, h]
  · intro htf hp2 hp3 hex
    unfold presDenominatorExact at hex
    simp only at hex
    rcases mul_eq_zero.mp hex with hfac | hp
    · apply hz
      have hf := presFactor_zero d.tfine d.digP2 d.digP3 htf hp2 hp3 hfac
      unfold presDenominator
      simp only
      rw [hf]
      simp [fmul, fl_zero]
    · exact hp1 (by exact_mod_cast hp)

/-- Witness for C7: the sample device with digP1 = 0 returns the sentinel, the
sample device as it is returns a value, and a device with digP1 = 36477 whose
exact denominator is zero (fine temperature 1176576, digP2 = digP3 = -16384)
returns the sentinel. -/
theorem compensatePres_zero_denominator_witness :
    ({ sampleDevice with digP1 := 0 } : Device).digP1 = 0 ∧
    compensatePres { sampleDevice with digP1 := 0 } 328374 = some 0 ∧
    (∃ p, compensatePres sampleDevice 328374 = some p) ∧
    presDenominatorExact
      { sampleDevice with tfine := 1176576, digP2 := -16384, digP3 := -16384 } = 0 ∧
    compensatePres { sampleDevice with tfine := 1176576, digP2 := -16384, digP3 := -16384 }
      328374 = some 0 :=
  have hex : presDenominatorExact
      { sampleDevice with tfine := 1176576, digP2 := -16384, digP3 := -16384 } = 0 := by
    simp only [presDenominatorExact, sampleDevice, Device.init]
    norm_num
  ⟨rfl,
    (compensatePres_zero_denominator { sampleDevice with digP1 := 0 } 328374).2.1 rfl,
    (compensatePres_zero_denominator sampleDevice 328374).2.2.1,
    hex,
    (compensatePres_zero_denominator
      { sampleDevice with tfine := 1176576, digP2 := -16384, digP3 := -16384 } 328374).2.2.2
      (by decide) (by decide) (by decide) hex⟩

/-! ## Read -/

theorem raw20_eq (a b c : Nat) (hb : b < 256) (hc : c < 256) :
    (a <<< 12) ||| (b <<< 4) ||| (c >>> 4) = 4096 * a + 16 * b + c / 16 := by
  rw [high_nibble, Nat.lor_assoc, shl4_or b (c / 16) (by omega),
    shl12_or a (16 * b + c / 16) (by omega)]
  omega

/-- C9: for every 8-byte burst `d`, the raw readings are
presRaw = floor((65536*d[0] + 256*d[1] + d[2]) / 16), tempRaw likewise from
d[3], d[4], d[5], and humRaw = 256*d[6] + d[7]; presRaw and tempRaw are below
2^20 and humRaw below 2^16, none is negative, and `Read` compensates exactly
these three values. -/
theorem read_raw_layout (dev : Device) (d : List Nat) (hd : IsBytes 8 d) :
    presRaw d = ((65536 * d.getD 0 0 + 256 * d.getD 1 0 + d.getD 2 0) / 16 : Nat) ∧
    tempRaw d = ((65536 * d.getD 3 0 + 256 * d.getD 4 0 + d.getD 5 0) / 16 : Nat) ∧
    humRaw d = (256 * d.getD 6 0 + d.getD 7 0 : Nat) ∧
    0 ≤ presRaw d ∧ presRaw d < 2 ^ 20 ∧
    0 ≤ tempRaw d ∧ tempRaw d < 2 ^ 20 ∧
    0 ≤ humRaw d ∧ humRaw d < 2 ^ 16 ∧
    (readBurst dev d).1 =
      [some (compensateTemp { dev with tfine := 0 } (tempRaw d)).1,
       compensatePres (compensateTemp { dev with tfine := 0 } (tempRaw d)).2 (presRaw d),
       some (compensateHum (compensateTemp { dev with tfine := 0 } (tempRaw d)).2 (humRaw d))] := by
  have hlt := fun i => isBytes_getD hd i
  have h0 := hlt 0
  have h1 := hlt 1
  have h2 := hlt 2
  have h3 := hlt 3
  have h4 := hlt 4
  have h5 := hlt 5
  have h6 := hlt 6
  have h7 := hlt 7
  have hp : presRaw d = ((4096 * d.getD 0 0 + 16 * d.getD 1 0 + d.getD 2 0 / 16 : Nat) : Int) := by
    unfold presRaw
    rw [raw20_eq _ _ _ h1 h2]
  have ht : tempRaw d = ((4096 * d.getD 3 0 + 16 * d.getD 4 0 + d.getD 5 0 / 16 : Nat) : Int) := by
    unfold tempRaw
    rw [raw20_eq _ _ _ h4 h5]
  have hh : humRaw d = ((256 * d.getD 6 0 + d.getD 7 0 : Nat) : Int) := by
    unfold humRaw
    rw [shl8_or _ _ h7]
  rw [hp, ht, hh]
  generalize d.getD 0 0 = b0 at *
  generalize d.getD 1 0 = b1 at *
  generalize d.getD 2 0 = b2 at *
  generalize d.getD 3 0 = b3 at *
  generalize d.getD 4 0 = b4 at *
  generalize d.getD 5 0 = b5 at *
  generalize d.getD 6 0 = b6 at *
  generalize d.getD 7 0 = b7 at *
  refine ⟨?_, ?_, rfl, by omega, ?_, by omega, ?_, by omega, ?_, ?_⟩
  · congr 1; omega
  · congr 1; omega
  · norm_num; omega
  · norm_num; omega
  · norm_num; omega
  · rw [← hp, ← ht, ← hh]; rfl

/-- Witness for C9: the burst [0x50,0x2B,0x60,0x7A,0x2D,0xC0,0x7F,0xC3] gives
presRaw = 0x502B6, tempRaw = 0x7A2DC and humRaw = 0x7FC3. -/
theorem read_raw_layout_witness :
    IsBytes 8 sampleBurst ∧
    presRaw sampleBurst = 0x502B6 ∧ tempRaw sampleBurst = 0x7A2DC ∧
    humRaw sampleBurst = 0x7FC3 :=
  have h := read_raw_layout sampleDevice sampleBurst (by decide)
  ⟨by decide, h.1.trans (by decide), h.2.1.trans (by decide), h.2.2.1.trans (by decide)⟩

theorem Read_ok {σ ε : Type} (bus : I2CBus σ ε) (d : Device) (w : World σ) (data : List Nat)
    (hd : IsBytes 8 data) (hread : (bus.ReadFromReg w.st DeviceAddr 0xf7 8).1 = .ok data) :
    (Read bus d w).1 = .ok (readBurst d data).1 ∧ (Read bus d w).2.1 = (readBurst d data).2 := by
  have hbuf : (busRead bus w DeviceAddr 0xf7 8).1 = .ok data := by
    simp [busRead, hread, Except.map, fillBuf_of_isBytes hd]
  unfold Read
  rcases h1 : busRead bus w DeviceAddr 0xf7 8 with ⟨r1, w1⟩
  rw [h1] at hbuf
  simp only at hbuf
  subst hbuf
  exact ⟨rfl, rfl⟩

theorem readBurst_congr (d e : Device) (data : List Nat) (h : SameCoefficients e d) :
    (readBurst e data).1 = (readBurst d data).1 := by
  obtain ⟨t1, t2, t3, p1, p2, p3, p4, p5, p6, p7, p8, p9, h1, h2, h3, h4, h5, h6⟩ := h
  simp only [readBurst, compensateTemp, compensatePres, compensateHum,
    t1, t2, t3, p1, p2, p3, p4, p5, p6, p7, p8, p9, h1, h2, h3, h4, h5, h6]

/-- C10: for every device state and every successful 8-byte burst, `Read`
returns the triple in the order (temperature, pressure, humidity); pressure and
humidity are compensated with the fine temperature that compensating this
burst's tempRaw produces, which is also the fine temperature left in the
device; and a device with the same calibration coefficients (whatever fine
temperature an earlier `Read` left in it) returns the same triple. -/
theorem Read_triple {σ ε : Type} (bus : I2CBus σ ε) (d e : Device) (w : World σ)
    (data : List Nat) (hd : IsBytes 8 data)
    (hread : (bus.ReadFromReg w.st DeviceAddr 0xf7 8).1 = .ok data)
    (hsame : SameCoefficients e d) :
    (Read bus d w).1 = .ok
      [some (compensateTemp d (tempRaw data)).1,
       compensatePres { d with tfine := (compensateTemp d (tempRaw data)).2.tfine } (presRaw data),
       some (compensateHum { d with tfine := (compensateTemp d (tempRaw data)).2.tfine }
         (humRaw data))] ∧
    (Read bus d w).2.1.tfine = (compensateTemp d (tempRaw data)).2.tfine ∧
    (Read bus e w).1 = (Read bus d w).1 := by
  obtain ⟨hr, hs⟩ := Read_ok bus d w data hd hread
  obtain ⟨hr2, -⟩ := Read_ok bus e w data hd hread
  refine ⟨?_, ?_, ?_⟩
  · rw [hr]; rfl
  · rw [hs]; rfl
  · rw [hr, hr2, readBurst_congr d e data hsame]

/-- Witness for C10: the sample device and the same device holding another fine
temperature return the same triple for the sample burst. -/
theorem Read_triple_witness :
    IsBytes 8 sampleBurst ∧
    SameCoefficients { sampleDevice with tfine := 76800 } sampleDevice ∧
    (Read (constBus [] [] sampleBurst) { sampleDevice with tfine := 76800 } ⟨(), []⟩).1
      = (Read (constBus [] [] sampleBurst) sampleDevice ⟨(), []⟩).1 ∧
    (Read (constBus [] [] sampleBurst) sampleDevice ⟨(), []⟩).2.1.tfine
      = (compensateTemp sampleDevice (tempRaw sampleBurst)).2.tfine :=
  have hs : SameCoefficients { sampleDevice with tfine := 76800 } sampleDevice := by
    unfold SameCoefficients; decide
  have h := Read_triple (constBus [] [] sampleBurst) sampleDevice
    { sampleDevice with tfine := 76800 } ⟨(), []⟩ sampleBurst (by decide) rfl hs
  ⟨by decide, hs, h.2.2, h.2.1⟩

/-! ## Control bytes -/

theorem measure_fields (t p m : Nat) (ht : t < 8) (hp : p < 8) (hm : m < 4) :
    (toUint8 ((t <<< 5) ||| (p <<< 2) ||| m) >>> 5) &&& 7 = t ∧
    (toUint8 ((t <<< 5) ||| (p <<< 2) ||| m) >>> 2) &&& 7 = p ∧
    toUint8 ((t <<< 5) ||| (p <<< 2) ||| m) &&& 3 = m := by
  interval_cases t <;> interval_cases p <;> interval_cases m <;> decide

theorem config_fields (t f : Nat) (b : Bool) (ht : t < 8) (hf : f < 8) :
    (toUint8 ((t <<< 5) ||| (f <<< 2) ||| (if b then 1 else 0)) >>> 5) &&& 7 = t ∧
    (toUint8 ((t <<< 5) ||| (f <<< 2) ||| (if b then 1 else 0)) >>> 2) &&& 7 = f ∧
    (toUint8 ((t <<< 5) ||| (f <<< 2) ||| (if b then 1 else 0)) &&& 1 = 1 ↔ b = true) ∧
    (toUint8 ((t <<< 5) ||| (f <<< 2) ||| (if b then 1 else 0)) >>> 1) &&& 1 = 0 := by
  cases b <;> interval_cases t <;> interval_cases f <;> decide

/-! ## Setup -/

theorem setup_trace {σ ε : Type} (bus : I2CBus σ ε) (d : Device) (w : World σ) :
    (∀ e, (bus.WriteByteToReg w.st 0x76 0xF2 (toUint8 d.Opt.HumidityOverSampling)).1 = some e →
      setup bus d w =
        (some e, ⟨(bus.WriteByteToReg w.st 0x76 0xF2 (toUint8 d.Opt.HumidityOverSampling)).2,
          w.log ++ (setupOps d).take 1⟩)) ∧
    ((bus.WriteByteToReg w.st 0x76 0xF2 (toUint8 d.Opt.HumidityOverSampling)).1 = none →
      ∀ e, (bus.WriteByteToReg
          (bus.WriteByteToReg w.st 0x76 0xF2 (toUint8 d.Opt.HumidityOverSampling)).2
          0x76 0xF4 d.Opt.MeasureReg).1 = some e →
      setup bus d w =
        (some e, ⟨(bus.WriteByteToReg
          (bus.WriteByteToReg w.st 0x76 0xF2 (toUint8 d.Opt.HumidityOverSampling)).2
          0x76 0xF4 d.Opt.MeasureReg).2, w.log ++ (setupOps d).take 2⟩)) ∧
    ((bus.WriteByteToReg w.st 0x76 0xF2 (toUint8 d.Opt.HumidityOverSampling)).1 = none →
      (bus.WriteByteToReg
          (bus.WriteByteToReg w.st 0x76 0xF2 (toUint8 d.Opt.HumidityOverSampling)).2
          0x76 0xF4 d.Opt.MeasureReg).1 = none →
      setup bus d w =
        ((bus.WriteByteToReg (bus.WriteByteToReg
          (bus.WriteByteToReg w.st 0x76 0xF2 (toUint8 d.Opt.HumidityOverSampling)).2
          0x76 0xF4 d.Opt.MeasureReg).2 0x76 0xF5 d.Opt.ConfigReg).1,
         ⟨(bus.WriteByteToReg (bus.WriteByteToReg
          (bus.WriteByteToReg w.st 0x76 0xF2 (toUint8 d.Opt.HumidityOverSampling)).2
          0x76 0xF4 d.Opt.MeasureReg).2 0x76 0xF5 d.Opt.ConfigReg).2,
          w.log ++ setupOps d⟩)) := by
  simp only [setup, List.zip, List.zipWith, setupLoop, busWrite, DeviceAddr, CtrlHumAddr,
    CtrlMeasureAddr, CtrlConfAddr, setupOps, List.take]
  rcases h1 : bus.WriteByteToReg w.st 0x76 0xF2 (toUint8 d.Opt.HumidityOverSampling)
    with ⟨o1, s1⟩
  cases o1 with
  | some e1 => simp
  | none =>
    simp only
    rcases h2 : bus.WriteByteToReg s1 0x76 0xF4 d.Opt.MeasureReg with ⟨o2, s2⟩
    cases o2 with
    | some e2 => simp
    | none =>
      simp only
      rcases h3 : bus.WriteByteToReg s2 0x76 0xF5 d.Opt.ConfigReg with ⟨o3, s3⟩
      cases o3 with
      | some e3 => simp
      | none => simp

theorem setup_log_head {σ ε : Type} (bus : I2CBus σ ε) (d : Device) (w : World σ) :
    ∃ rest, (setup bus d w).2.log =
      w.log ++ BusOp.write 0x76 0xF2 (toUint8 d.Opt.HumidityOverSampling) :: rest := by
  obtain ⟨h1, h2, h3⟩ := setup_trace bus d w
  cases hr1 : (bus.WriteByteToReg w.st 0x76 0xF2 (toUint8 d.Opt.HumidityOverSampling)).1 with
  | some e => exact ⟨[], by rw [h1 e hr1]; rfl⟩
  | none =>
    cases hr2 : (bus.WriteByteToReg
        (bus.WriteByteToReg w.st 0x76 0xF2 (toUint8 d.Opt.HumidityOverSampling)).2
        0x76 0xF4 d.Opt.MeasureReg).1 with
    | some e => exact ⟨[BusOp.write 0x76 0xF4 d.Opt.MeasureReg], by rw [h2 hr1 e hr2]; rfl⟩
    | none =>
      exact ⟨[BusOp.write 0x76 0xF4 d.Opt.MeasureReg, BusOp.write 0x76 0xF5 d.Opt.ConfigReg],
        by rw [h3 hr1 hr2]; rfl⟩

/-- C11: for all valid options (temperature and pressure oversampling, standby
and filter below 8, mode below 4, humidity oversampling at most 5) every
sub-field is recovered from its register byte: from m = MeasureReg(),
(m>>5)&7, (m>>2)&7 and m&3 give the temperature oversampling, the pressure
oversampling and the mode; from c = ConfigReg(), (c>>5)&7 and (c>>2)&7 give the
standby and the filter, c&1 = 1 exactly when SPI3WEnable is set, and bit 1 of c
is 0; and the first byte `setup` writes, to register 0xF2 of device 0x76, is
HumidityOverSampling itself. -/
theorem control_bytes_roundtrip {σ ε : Type} (bus : I2CBus σ ε) (d : Device) (w : World σ)
    (hv : ValidOpt d.Opt) :
    (d.Opt.MeasureReg >>> 5) &&& 7 = d.Opt.TemperatureOverSampling ∧
    (d.Opt.MeasureReg >>> 2) &&& 7 = d.Opt.PressureOverSampling ∧
    d.Opt.MeasureReg &&& 3 = d.Opt.Mode ∧
    (d.Opt.ConfigReg >>> 5) &&& 7 = d.Opt.TStandby ∧
    (d.Opt.ConfigReg >>> 2) &&& 7 = d.Opt.Filter ∧
    (d.Opt.ConfigReg &&& 1 = 1 ↔ d.Opt.SPI3WEnable = true) ∧
    (d.Opt.ConfigReg >>> 1) &&& 1 = 0 ∧
    (∃ rest, (setup bus d w).2.log =
      w.log ++ BusOp.write 0x76 0xF2 d.Opt.HumidityOverSampling :: rest) := by
  obtain ⟨hT, hP, hM, hS, hF, hH⟩ := hv
  obtain ⟨m1, m2, m3⟩ := measure_fields _ _ _ hT hP hM
  obtain ⟨c1, c2, c3, c4⟩ := config_fields _ _ d.Opt.SPI3WEnable hS hF
  refine ⟨m1, m2, m3, c1, c2, c3, c4, ?_⟩
  have hh : toUint8 d.Opt.HumidityOverSampling = d.Opt.HumidityOverSampling :=
    Nat.mod_eq_of_lt (by omega)
  have := setup_log_head bus d w
  rwa [hh] at this

/-- Witness for C11 on the default options. -/
theorem control_bytes_roundtrip_witness :
    ValidOpt sampleDevice.Opt ∧
    sampleDevice.Opt.MeasureReg = 0x27 ∧ sampleDevice.Opt.ConfigReg = 0xA0 ∧
    (sampleDevice.Opt.MeasureReg >>> 5) &&& 7 = 1 ∧
    (sampleDevice.Opt.ConfigReg >>> 5) &&& 7 = 5 :=
  have hv : ValidOpt sampleDevice.Opt := by unfold ValidOpt; decide
  have h := control_bytes_roundtrip (constBus [] [] []) sampleDevice ⟨(), []⟩ hv
  ⟨hv, by decide, by decide, h.1, h.2.2.2.1⟩

theorem shl5_or (hi lo : Nat) (h : lo < 32) : (hi <<< 5) ||| lo = 32 * hi + lo := by
  have := Nat.mul_add_lt_is_or (i := 5) (b := lo) (by simpa using h) hi
  rw [Nat.shiftLeft_eq, Nat.mul_comm hi, ← this]

theorem shl2_or (hi lo : Nat) (h : lo < 4) : (hi <<< 2) ||| lo = 4 * hi + lo := by
  have := Nat.mul_add_lt_is_or (i := 2) (b := lo) (by simpa using h) hi
  rw [Nat.shiftLeft_eq, Nat.mul_comm hi, ← this]

/-- C12, refuted as stated: with temperature oversampling 1, pressure
oversampling 0 and mode 4, `MeasureReg` is 0x24 while the masked construction
is 0x20, and the pressure field read back from the byte is 1, not 0. -/
theorem MeasureReg_not_masked :
    ({ NewOpt with PressureOverSampling := 0, Mode := 4 } : BME280Opt).MeasureReg = 0x24 ∧
    measureRegMasked { NewOpt with PressureOverSampling := 0, Mode := 4 } = 0x20 ∧
    ({ NewOpt with PressureOverSampling := 0, Mode := 4 } : BME280Opt).MeasureReg
      ≠ measureRegMasked { NewOpt with PressureOverSampling := 0, Mode := 4 } ∧
    (({ NewOpt with PressureOverSampling := 0, Mode := 4 } : BME280Opt).MeasureReg >>> 2) &&& 7
      ≠ 0 := by
  decide

/-- C12, amended: `MeasureReg` is the low 8 bits of
(TemperatureOverSampling << 5) | (PressureOverSampling << 2) | Mode, with no
masking of the fields; for every TemperatureOverSampling (any unsigned value),
PressureOverSampling below 8 and Mode below 4 it equals
((TemperatureOverSampling & 7) << 5) | ((PressureOverSampling & 7) << 2) | (Mode & 3). -/
theorem MeasureReg_masked_of_small (o : BME280Opt) (hP : o.PressureOverSampling < 8)
    (hM : o.Mode < 4) :
    o.MeasureReg =
      ((o.TemperatureOverSampling <<< 5) ||| (o.PressureOverSampling <<< 2) ||| o.Mode) % 256 ∧
    o.MeasureReg = measureRegMasked o := by
  refine ⟨rfl, ?_⟩
  unfold BME280Opt.MeasureReg measureRegMasked toUint8
  have e7 : ∀ x : Nat, x &&& 7 = x % 8 := fun x => Nat.and_pow_two_sub_one_eq_mod x 3
  have e3 : ∀ x : Nat, x &&& 3 = x % 4 := fun x => Nat.and_pow_two_sub_one_eq_mod x 2
  rw [e7, e7, e3, Nat.lor_assoc, Nat.lor_assoc, shl2_or _ _ (Nat.mod_lt _ (by norm_num)),
    shl2_or _ _ hM, shl5_or _ _ (by omega), shl5_or _ _ (by omega)]
  omega

/-- Witness for the amended C12: an oversized temperature field is cut to its
three low bits by the byte conversion. -/
theorem MeasureReg_masked_of_small_witness :
    ({ NewOpt with TemperatureOverSampling := 9 } : BME280Opt).MeasureReg
      = measureRegMasked { NewOpt with TemperatureOverSampling := 9 } ∧
    ({ NewOpt with TemperatureOverSampling := 9 } : BME280Opt).MeasureReg = 0x27 :=
  ⟨(MeasureReg_masked_of_small { NewOpt with TemperatureOverSampling := 9 }
      (by decide) (by decide)).2, by decide⟩

/-- C13: the register writes `setup` issues are a prefix of
[(0x76, 0xF2, humidity control byte), (0x76, 0xF4, MeasureReg()),
(0x76, 0xF5, ConfigReg())] in that order: when the first write fails only it is
issued, when the second is the first to fail exactly two are issued, when the
third fails all three are issued, and in each case `setup` returns the failing
write's error unchanged; when all three succeed all three are issued and
`setup` returns no error. -/
theorem setup_writes {σ ε : Type} (bus : I2CBus σ ε) (d : Device) (w : World σ) :
    (∀ e, (bus.WriteByteToReg w.st 0x76 0xF2 (toUint8 d.Opt.HumidityOverSampling)).1 = some e →
      (setup bus d w).1 = some e ∧ (setup bus d w).2.log = w.log ++ (setupOps d).take 1) ∧
    ((bus.WriteByteToReg w.st 0x76 0xF2 (toUint8 d.Opt.HumidityOverSampling)).1 = none →
      ∀ e, (bus.WriteByteToReg
          (bus.WriteByteToReg w.st 0x76 0xF2 (toUint8 d.Opt.HumidityOverSampling)).2
          0x76 0xF4 d.Opt.MeasureReg).1 = some e →
      (setup bus d w).1 = some e ∧ (setup bus d w).2.log = w.log ++ (setupOps d).take 2) ∧
    ((bus.WriteByteToReg w.st 0x76 0xF2 (toUint8 d.Opt.HumidityOverSampling)).1 = none →
      (bus.WriteByteToReg
          (bus.WriteByteToReg w.st 0x76 0xF2 (toUint8 d.Opt.HumidityOverSampling)).2
          0x76 0xF4 d.Opt.MeasureReg).1 = none →
      (setup bus d w).1 =
        (bus.WriteByteToReg (bus.WriteByteToReg
          (bus.WriteByteToReg w.st 0x76 0xF2 (toUint8 d.Opt.HumidityOverSampling)).2
          0x76 0xF4 d.Opt.MeasureReg).2 0x76 0xF5 d.Opt.ConfigReg).1 ∧
      (setup bus d w).2.log = w.log ++ setupOps d) ∧
    (∃ k, 1 ≤ k ∧ k ≤ 3 ∧ (setup bus d w).2.log = w.log ++ (setupOps d).take k ∧
      ((setup bus d w).1 = none → k = 3)) := by
  obtain ⟨h1, h2, h3⟩ := setup_trace bus d w
  refine ⟨?_, ?_, ?_, ?_⟩
  · intro e he
    rw [h1 e he]
    exact ⟨rfl, rfl⟩
  · intro hn e he
    rw [h2 hn e he]
    exact ⟨rfl, rfl⟩
  · intro hn hn2
    rw [h3 hn hn2]
    exact ⟨rfl, rfl⟩
  · cases hr1 : (bus.WriteByteToReg w.st 0x76 0xF2 (toUint8 d.Opt.HumidityOverSampling)).1 with
    | some e =>
      refine ⟨1, le_refl _, by norm_num, ?_, ?_⟩
      · rw [h1 e hr1]
      · rw [h1 e hr1]; intro h; cases h
    | none =>
      cases hr2 : (bus.WriteByteToReg
          (bus.WriteByteToReg w.st 0x76 0xF2 (toUint8 d.Opt.HumidityOverSampling)).2
          0x76 0xF4 d.Opt.MeasureReg).1 with
      | some e =>
        refine ⟨2, by norm_num, by norm_num, ?_, ?_⟩
        · rw [h2 hr1 e hr2]
        · rw [h2 hr1 e hr2]; intro h; cases h
      | none =>
        refine ⟨3, by norm_num, le_refl _, ?_, fun _ => rfl⟩
        rw [h3 hr1 hr2]
        rfl

/-- Witness for C13: on a bus whose write to 0xF4 fails, `setup` issues the
first two writes and returns that error; on a bus that accepts every write it
issues all three and returns no error. -/
theorem setup_writes_witness :
    setup (failBus 0xF4) sampleDevice ⟨(), []⟩ =
      (some 0xF4, ⟨(), [BusOp.write 0x76 0xF2 1, BusOp.write 0x76 0xF4 0x27]⟩) ∧
    ((setup (failBus 0xF4) sampleDevice ⟨(), []⟩).1 = some 0xF4 ∧
      (setup (failBus 0xF4) sampleDevice ⟨(), []⟩).2.log = [] ++ (setupOps sampleDevice).take 2) ∧
    ((setup (constBus [] [] []) sampleDevice ⟨(), []⟩).1 = none ∧
      (setup (constBus [] [] []) sampleDevice ⟨(), []⟩).2.log = [] ++ setupOps sampleDevice) :=
  ⟨rfl,
    (setup_writes (failBus 0xF4) sampleDevice ⟨(), []⟩).2.1 rfl 0xF4 rfl,
    (setup_writes (constBus [] [] []) sampleDevice ⟨(), []⟩).2.2.1 rfl rfl⟩

/-! ## Calibration lifecycle -/

theorem callibrate_eq {σ ε : Type} (bus : I2CBus σ ε) (d : Device) (w : World σ) :
    callibrate bus d w = if d.calibrated then (none, d, w) else callibrateLocked bus d w := rfl

theorem callibrateLocked_trace {σ ε : Type} (bus : I2CBus σ ε) (d : Device) (w : World σ) :
    (∀ e, (bus.ReadFromReg w.st 0x76 0x88 26).1 = .error e →
      (callibrateLocked bus d w).1 = some e ∧
      (callibrateLocked bus d w).2.1.calibrated = d.calibrated ∧
      (callibrateLocked bus d w).2.2 =
        ⟨(bus.ReadFromReg w.st 0x76 0x88 26).2, w.log ++ [BusOp.read 0x76 0x88 26]⟩) ∧
    (∀ b e, (bus.ReadFromReg w.st 0x76 0x88 26).1 = .ok b →
      (bus.ReadFromReg (bus.ReadFromReg w.st 0x76 0x88 26).2 0x76 0xe1 7).1 = .error e →
      (callibrateLocked bus d w).1 = some e ∧
      (callibrateLocked bus d w).2.1.calibrated = d.calibrated ∧
      (callibrateLocked bus d w).2.2 =
        ⟨(bus.ReadFromReg (bus.ReadFromReg w.st 0x76 0x88 26).2 0x76 0xe1 7).2,
          w.log ++ [BusOp.read 0x76 0x88 26, BusOp.read 0x76 0xe1 7]⟩) ∧
    (∀ b c, (bus.ReadFromReg w.st 0x76 0x88 26).1 = .ok b →
      (bus.ReadFromReg (bus.ReadFromReg w.st 0x76 0x88 26).2 0x76 0xe1 7).1 = .ok c →
      (callibrateLocked bus d w).1 = none ∧
      (callibrateLocked bus d w).2.1.calibrated = true ∧
      (callibrateLocked bus d w).2.2 =
        ⟨(bus.ReadFromReg (bus.ReadFromReg w.st 0x76 0x88 26).2 0x76 0xe1 7).2,
          w.log ++ [BusOp.read 0x76 0x88 26, BusOp.read 0x76 0xe1 7]⟩) := by
  simp only [callibrateLocked, busRead, DeviceAddr]
  rcases h1 : bus.ReadFromReg w.st 0x76 0x88 26 with ⟨r1, s1⟩
  cases r1 with
  | error e1 =>
    refine ⟨?_, ?_, ?_⟩
    · intro e he
      simp only [Except.error.injEq] at he
      subst he
      exact ⟨rfl, rfl, rfl⟩
    · intro b e hb; cases hb
    · intro b c hb; cases hb
  | ok b1 =>
    simp only [Except.map]
    rcases h2 : bus.ReadFromReg s1 0x76 0xe1 7 with ⟨r2, s2⟩
    cases r2 with
    | error e2 =>
      refine ⟨?_, ?_, ?_⟩
      · intro e he; cases he
      · intro b e _ he
        simp only [Except.error.injEq] at he
        subst he
        refine ⟨rfl, rfl, ?_⟩
        simp
      · intro b c _ hc; cases hc
    | ok c2 =>
      refine ⟨?_, ?_, ?_⟩
      · intro e he; cases he
      · intro b e _ he; cases he
      · intro b c _ _
        refine ⟨rfl, rfl, ?_⟩
        simp

theorem callibrateLocked_log_head {σ ε : Type} (bus : I2CBus σ ε) (d : Device) (w : World σ) :
    ∃ rest, (callibrateLocked bus d w).2.2.log = w.log ++ BusOp.read 0x76 0x88 26 :: rest := by
  obtain ⟨h1, h2, h3⟩ := callibrateLocked_trace bus d w
  cases hr1 : (bus.ReadFromReg w.st 0x76 0x88 26).1 with
  | error e => exact ⟨[], by rw [(h1 e hr1).2.2]⟩
  | ok b =>
    cases hr2 : (bus.ReadFromReg (bus.ReadFromReg w.st 0x76 0x88 26).2 0x76 0xe1 7).1 with
    | error e => exact ⟨[BusOp.read 0x76 0xe1 7], by rw [(h2 b e hr1 hr2).2.2]⟩
    | ok c => exact ⟨[BusOp.read 0x76 0xe1 7], by rw [(h3 b c hr1 hr2).2.2]⟩

/-- C14, evaluated on the code: two callers on one uncalibrated device, both
running the fast-path check before either takes the exclusive lock, make the
transport see two reads of the 26-byte block at 0x88 and two reads of the
7-byte block at 0xE1, because the locked body does not test the flag again; the
schedule in which the second caller checks after the first has finished gives
one read of each block. -/
theorem concurrent_callibrate_reads_twice :
    (runSchedule (constBus sampleBlock1 sampleBlock2 []) (Device.init NewOpt) ⟨(), []⟩ 2
        [.check 0, .check 1, .locked 0, .locked 1]).world.log
      = [BusOp.read 0x76 0x88 26, BusOp.read 0x76 0xE1 7,
         BusOp.read 0x76 0x88 26, BusOp.read 0x76 0xE1 7] ∧
    (runSchedule (constBus sampleBlock1 sampleBlock2 []) (Device.init NewOpt) ⟨(), []⟩ 2
        [.check 0, .check 1, .locked 0, .locked 1]).phases = [.done, .done] ∧
    (runSchedule (constBus sampleBlock1 sampleBlock2 []) (Device.init NewOpt) ⟨(), []⟩ 2
        [.check 0, .locked 0, .check 1, .locked 1]).world.log
      = [BusOp.read 0x76 0x88 26, BusOp.read 0x76 0xE1 7] ∧
    (runSchedule (constBus sampleBlock1 sampleBlock2 []) (Device.init NewOpt) ⟨(), []⟩ 2
        [.check 0, .locked 0, .check 1, .locked 1]).phases = [.done, .done] := by
  decide

/-- C15: for every device whose calibrated flag is set, `callibrate` returns no
error, performs no transport operation (the bus state and the log are
unchanged) and leaves the whole device, every coefficient and the flag
included, unchanged. -/
theorem callibrate_calibrated {σ ε : Type} (bus : I2CBus σ ε) (d : Device) (w : World σ)
    (h : d.calibrated = true) :
    callibrate bus d w = (none, d, w) ∧
    (callibrate bus d w).2.2.log = w.log ∧
    (callibrate bus d w).2.1.calibrated = true := by
  have e : callibrate bus d w = (none, d, w) := by
    rw [callibrate_eq, if_pos h]
  rw [e]
  exact ⟨rfl, rfl, h⟩

/-- Witness for C15: the calibrated sample device on a bus that would answer. -/
theorem callibrate_calibrated_witness :
    sampleDevice.calibrated = true ∧
    callibrate (constBus sampleBlock1 sampleBlock2 []) sampleDevice ⟨(), []⟩
      = (none, sampleDevice, ⟨(), []⟩) :=
  ⟨rfl, (callibrate_calibrated (constBus sampleBlock1 sampleBlock2 []) sampleDevice
    ⟨(), []⟩ rfl).1⟩

/-- C16: for every uncalibrated device, when the 26-byte read at 0x88 fails, or
it succeeds and the 7-byte read at 0xE1 fails, `callibrate` returns exactly
that error, the calibrated flag is still false, the reads issued are the one
or two reads up to the failure, and a later `callibrate` on the resulting
device issues the read of the first block again. -/
theorem callibrate_read_failure {σ ε : Type} (bus : I2CBus σ ε) (d : Device) (w : World σ)
    (hd : d.calibrated = false) :
    (∀ e, (bus.ReadFromReg w.st 0x76 0x88 26).1 = .error e →
      (callibrate bus d w).1 = some e ∧
      (callibrate bus d w).2.1.calibrated = false ∧
      (callibrate bus d w).2.2.log = w.log ++ [BusOp.read 0x76 0x88 26] ∧
      ∀ w2 : World σ, ∃ rest, (callibrate bus (callibrate bus d w).2.1 w2).2.2.log
        = w2.log ++ BusOp.read 0x76 0x88 26 :: rest) ∧
    (∀ b e, (bus.ReadFromReg w.st 0x76 0x88 26).1 = .ok b →
      (bus.ReadFromReg (bus.ReadFromReg w.st 0x76 0x88 26).2 0x76 0xe1 7).1 = .error e →
      (callibrate bus d w).1 = some e ∧
      (callibrate bus d w).2.1.calibrated = false ∧
      (callibrate bus d w).2.2.log
        = w.log ++ [BusOp.read 0x76 0x88 26, BusOp.read 0x76 0xe1 7] ∧
      ∀ w2 : World σ, ∃ rest, (callibrate bus (callibrate bus d w).2.1 w2).2.2.log
        = w2.log ++ BusOp.read 0x76 0x88 26 :: rest) := by
  have e : callibrate bus d w = callibrateLocked bus d w := by
    rw [callibrate_eq, if_neg (by simp [hd])]
  have again : ∀ d2 : Device, d2.calibrated = false → ∀ w2 : World σ,
      ∃ rest, (callibrate bus d2 w2).2.2.log = w2.log ++ BusOp.read 0x76 0x88 26 :: rest := by
    intro d2 h2 w2
    rw [callibrate_eq, if_neg (by simp [h2])]
    exact callibrateLocked_log_head bus d2 w2
  obtain ⟨h1, h2, -⟩ := callibrateLocked_trace bus d w
  rw [e]
  constructor
  · intro err he
    obtain ⟨a1, a2, a3⟩ := h1 err he
    refine ⟨a1, a2.trans hd, by rw [a3], again _ (a2.trans hd)⟩
  · intro b err hb he
    obtain ⟨a1, a2, a3⟩ := h2 b err hb he
    refine ⟨a1, a2.trans hd, by rw [a3], again _ (a2.trans hd)⟩

/-- Witness for C16: on a bus whose read at 0xE1 fails, `callibrate` on a fresh
device returns that error after two reads and leaves the flag false. -/
theorem callibrate_read_failure_witness :
    (Device.init NewOpt).calibrated = false ∧
    (callibrate (failBus 0xe1) (Device.init NewOpt) ⟨(), []⟩).1 = some 0xe1 ∧
    (callibrate (failBus 0xe1) (Device.init NewOpt) ⟨(), []⟩).2.1.calibrated = false ∧
    (callibrate (failBus 0xe1) (Device.init NewOpt) ⟨(), []⟩).2.2.log
      = [] ++ [BusOp.read 0x76 0x88 26, BusOp.read 0x76 0xe1 7] :=
  have h := (callibrate_read_failure (failBus 0xe1) (Device.init NewOpt) ⟨(), []⟩ rfl).2
    (List.replicate 26 0) 0xe1 rfl rfl
  ⟨rfl, h.1, h.2.1, h.2.2.1⟩

/-- C17: for every uncalibrated device and every transport on which both reads
succeed, one `callibrate` call issues exactly two reads, 26 bytes from device
0x76 at register 0x88 and then 7 bytes from device 0x76 at register 0xE1,
returns no error and leaves the calibrated flag true. -/
theorem callibrate_success {σ ε : Type} (bus : I2CBus σ ε) (d : Device) (w : World σ)
    (b c : List Nat) (hd : d.calibrated = false)
    (h1 : (bus.ReadFromReg w.st 0x76 0x88 26).1 = .ok b)
    (h2 : (bus.ReadFromReg (bus.ReadFromReg w.st 0x76 0x88 26).2 0x76 0xe1 7).1 = .ok c) :
    (callibrate bus d w).1 = none ∧
    (callibrate bus d w).2.1.calibrated = true ∧
    (callibrate bus d w).2.2.log
      = w.log ++ [BusOp.read 0x76 0x88 26, BusOp.read 0x76 0xE1 7] := by
  have e : callibrate bus d w = callibrateLocked bus d w := by
    rw [callibrate_eq, if_neg (by simp [hd])]
  obtain ⟨-, -, h3⟩ := callibrateLocked_trace bus d w
  obtain ⟨a1, a2, a3⟩ := h3 b c h1 h2
  rw [e]
  exact ⟨a1, a2, by rw [a3]⟩

/-- Witness for C17 on the constant bus and a fresh device. -/
theorem callibrate_success_witness :
    (Device.init NewOpt).calibrated = false ∧
    (callibrate (constBus sampleBlock1 sampleBlock2 []) (Device.init NewOpt) ⟨(), []⟩).1 = none ∧
    (callibrate (constBus sampleBlock1 sampleBlock2 []) (Device.init NewOpt)
      ⟨(), []⟩).2.1.calibrated = true ∧
    (callibrate (constBus sampleBlock1 sampleBlock2 []) (Device.init NewOpt) ⟨(), []⟩).2.2.log
      = [] ++ [BusOp.read 0x76 0x88 26, BusOp.read 0x76 0xE1 7] :=
  ⟨rfl, callibrate_success (constBus sampleBlock1 sampleBlock2 []) (Device.init NewOpt)
    ⟨(), []⟩ sampleBlock1 sampleBlock2 rfl rfl rfl⟩

/-! ## Read: transport and uncalibrated devices -/

theorem Read_log {σ ε : Type} (bus : I2CBus σ ε) (d : Device) (w : World σ) :
    (Read bus d w).2.2 =
      ⟨(bus.ReadFromReg w.st 0x76 0xF7 8).2, w.log ++ [BusOp.read 0x76 0xF7 8]⟩ := by
  simp only [Read, busRead, DeviceAddr]
  rcases h1 : bus.ReadFromReg w.st 0x76 0xF7 8 with ⟨r1, s1⟩
  cases r1 <;> rfl

theorem Read_error {σ ε : Type} (bus : I2CBus σ ε) (d : Device) (w : World σ) (e : ε)
    (h : (bus.ReadFromReg w.st 0x76 0xF7 8).1 = .error e) :
    (Read bus d w).1 = .error e ∧ (Read bus d w).2.1 = d := by
  simp only [Read, busRead, DeviceAddr]
  rcases h1 : bus.ReadFromReg w.st 0x76 0xF7 8 with ⟨r1, s1⟩
  rw [h1] at h
  simp only at h
  subst h
  exact ⟨rfl, rfl⟩

/-- C18: for every device state, calibrated or not, `Read` issues exactly one
transport operation, a read of 8 bytes from device 0x76 at register 0xF7 (so no
calibration read); when that read fails `Read` returns that error and no
measurement values, and the device (coefficients, calibrated flag and fine
temperature) is unchanged. -/
theorem Read_transport {σ ε : Type} (bus : I2CBus σ ε) (d : Device) (w : World σ) :
    (Read bus d w).2.2.log = w.log ++ [BusOp.read 0x76 0xF7 8] ∧
    (∀ e, (bus.ReadFromReg w.st 0x76 0xF7 8).1 = .error e →
      (Read bus d w).1 = .error e ∧ (Read bus d w).2.1 = d) := by
  refine ⟨by rw [Read_log], ?_⟩
  intro e he
  exact Read_error bus d w e he

/-- Witness for C18: on a bus whose read at 0xF7 fails, `Read` on a fresh
device issues the single burst read and returns the error. -/
theorem Read_transport_witness :
    (Read (failBus 0xF7) (Device.init NewOpt) ⟨(), []⟩).2.2.log
      = [] ++ [BusOp.read 0x76 0xF7 8] ∧
    (Read (failBus 0xF7) (Device.init NewOpt) ⟨(), []⟩).1 = .error 0xF7 ∧
    (Read (failBus 0xF7) (Device.init NewOpt) ⟨(), []⟩).2.1 = Device.init NewOpt :=
  have h := Read_transport (failBus 0xF7) (Device.init NewOpt) ⟨(), []⟩
  ⟨h.1, h.2 0xF7 rfl⟩

theorem readBurst_init (opt : BME280Opt) (data : List Nat) :
    (readBurst (Device.init opt) data).1 = [some 0, some 0, some 0] := by
  have h0 : float64ToInt32 0 = 0 := by
    have h := truncToZero_intCast 0
    push_cast at h
    rw [float64ToInt32_of_fits _ (by rw [h]; unfold FitsInt32; norm_num), h]
  simp [readBurst, compensateTemp, compensatePres, compensateHum, Device.init, fadd, fsub, fmul,
    fquo, fl_zero, h0]

/-- C19: for every successful 8-byte burst, `Read` on a device whose calibration
coefficients are all at their zero default returns no error and the triple
(0, 0, 0). -/
theorem Read_uncalibrated {σ ε : Type} (bus : I2CBus σ ε) (d : Device) (w : World σ)
    (data : List Nat) (hd : IsBytes 8 data)
    (hread : (bus.ReadFromReg w.st DeviceAddr 0xf7 8).1 = .ok data)
    (hz : SameCoefficients d (Device.init d.Opt)) :
    (Read bus d w).1 = .ok [some 0, some 0, some 0] := by
  obtain ⟨hr, -⟩ := Read_ok bus d w data hd hread
  rw [hr, readBurst_congr (Device.init d.Opt) d data hz, readBurst_init]

/-- Witness for C19: a fresh device and the sample burst. -/
theorem Read_uncalibrated_witness :
    IsBytes 8 sampleBurst ∧
    SameCoefficients (Device.init NewOpt) (Device.init (Device.init NewOpt).Opt) ∧
    (Read (constBus [] [] sampleBurst) (Device.init NewOpt) ⟨(), []⟩).1
      = .ok [some 0, some 0, some 0] :=
  have hs : SameCoefficients (Device.init NewOpt) (Device.init (Device.init NewOpt).Opt) := by
    unfold SameCoefficients; decide
  ⟨by decide, hs,
    Read_uncalibrated (constBus [] [] sampleBurst) (Device.init NewOpt) ⟨(), []⟩ sampleBurst
      (by decide) rfl hs⟩

/-- C20: for every raw temperature reading in 0..2^20-1, every digT1 in
0..65535 and digT2, digT3 in -32768..32767, the `float64` value v1 + v2 that
`compensateTemp` computes satisfies |v1 + v2| < 2^22, its truncation is an
`int32` value, and the stored fine temperature is exactly that truncation. -/
theorem compensateTemp_no_overflow (d : Device) (raw : Int)
    (hraw : 0 ≤ raw ∧ raw < 1048576) (h1 : d.digT1 < 65536)
    (h2 : -32768 ≤ d.digT2 ∧ d.digT2 ≤ 32767) (h3 : -32768 ≤ d.digT3 ∧ d.digT3 ≤ 32767) :
    |tempSum d raw| < 2 ^ 22 ∧
    FitsInt32 (truncToZero (tempSum d raw)) ∧
    (compensateTemp d raw).2.tfine = truncToZero (tempSum d raw) ∧
    (compensateTemp d raw).1 = fquo (tempSum d raw) 5120 := by
  obtain ⟨hb, -⟩ := tempSumOf_bounds d.digT1 d.digT2 d.digT3 raw hraw h1 h2 h3
  have hb2 : |tempSum d raw| ≤ 4194302 := hb
  have hf := fitsInt32_of_abs_le _ hb2
  refine ⟨lt_of_le_of_lt hb2 (by norm_num), hf, ?_, rfl⟩
  rw [compensateTemp_eq]
  exact float64ToInt32_of_fits _ hf

/-- Witness for C20: at raw = 2^20 - 1, digT1 = 0, digT2 = 16386, digT3 = -1
the `float64` sum is 1048639 (the exact sum 1048639 - 2^-34 rounded) and
`compensateTemp` stores 1048639. -/
theorem compensateTemp_no_overflow_witness :
    |tempSum roundingDevice 1048575| < 2 ^ 22 ∧
    tempSum roundingDevice 1048575 = 1048639 ∧
    (compensateTemp roundingDevice 1048575).2.tfine = 1048639 :=
  have h := compensateTemp_no_overflow roundingDevice 1048575
    (by decide) (by decide) (by decide) (by decide)
  have hs : tempSum roundingDevice 1048575 = 1048639 := tempSumOf_rounds
  have ht : truncToZero (tempSum roundingDevice 1048575) = 1048639 := by
    rw [hs]
    have h0 := truncToZero_intCast 1048639
    push_cast at h0
    exact h0
  ⟨h.1, hs, h.2.2.1.trans ht⟩

end BME280
